import Mathlib

/-
Shallow embedding of `opentreemap/importer/models.py` (otm-core):
the bulk-import validation engine consisting of the `GenericImportEvent`
state machine and the `GenericImportRow` field validators.

Modelling conventions:
- Python dicts (the raw row data, the cleaned map) are association lists
  `List (String × α)` with first-match lookup and in-place update.
- The JSON text fields `errors` (both classes) are modelled as
  `Option (List _)` where `none` stands for the unset/empty text and
  `some l` for the JSON encoding of `l`; `errors_as_array` decodes.
- Python numbers are exact: `float` values are `Rat`, `int` values are `Int`.
  `float(...)` / `int(...)` parsing is modelled on decimal literals
  (optional sign, digits, decimal point); `datetime.strptime(v, "%Y-%m-%d")`
  is modelled as dash-separated numeric year/month/day with calendar
  day-of-month validation.
- Exceptions are `Option`: a raised KeyError/ValueError is `none`.
-/

/-- First-match lookup in an association list (Python `d[k]` / `d.get(k)`). -/
def getk {α : Type} : List (String × α) → String → Option α
  | [], _ => none
  | (k, v) :: rest, key => if k = key then some v else getk rest key

/-- In-place update-or-append (Python `d[k] = v`). -/
def setk {α : Type} : List (String × α) → String → α → List (String × α)
  | [], key, v => [(key, v)]
  | (k, w) :: rest, key, v =>
    if k = key then (key, v) :: rest else (k, w) :: setk rest key v

theorem getk_setk_self {α : Type} (m : List (String × α)) (k : String) (v : α) :
    getk (setk m k v) k = some v := by
  induction m with
  | nil => simp [getk, setk]
  | cons p rest ih =>
    by_cases h : p.1 = k
    · simp [setk, getk, h]
    · simp [setk, getk, h, ih]

theorem getk_setk_ne {α : Type} (m : List (String × α)) (k g : String) (v : α)
    (h : g ≠ k) : getk (setk m k v) g = getk m g := by
  have hk : k ≠ g := Ne.symm h
  induction m with
  | nil => simp [getk, setk, hk]
  | cons p rest ih =>
    by_cases hp : p.1 = k
    · simp [setk, getk, hp, hk]
    · simp [setk, getk, hp, ih]

theorem getk_setk_isSome_of_isSome {α : Type} (m : List (String × α)) (k g : String) (v : α)
    (h : (getk m g).isSome) : (getk (setk m k v) g).isSome := by
  by_cases hg : g = k
  · subst hg; simp [getk_setk_self]
  · rwa [getk_setk_ne m k g v hg]

/-- Split a character list at a separator character. -/
def splitChar (sep : Char) : List Char → List (List Char)
  | [] => [[]]
  | c :: rest =>
    if c = sep then [] :: splitChar sep rest
    else
      match splitChar sep rest with
      | [] => [[c]]
      | g :: gs => (c :: g) :: gs

/-- Numeric value of a digit string; `none` if empty or not all digits. -/
def digitsVal (cs : List Char) : Option Nat :=
  if cs ≠ [] ∧ cs.all Char.isDigit then
    some (cs.foldl (fun n c => n * 10 + (c.toNat - 48)) 0)
  else none

/-- Unsigned digit value with no validity check. -/
def digitsNat (cs : List Char) : Nat :=
  cs.foldl (fun n c => n * 10 + (c.toNat - 48)) 0

/-- Magnitude of a decimal literal: `digits`, `digits.digits`, `digits.`
or `.digits`. Model of Python float conversion on decimal literals. -/
def pyFloatMag (cs : List Char) : Option Rat :=
  match splitChar '.' cs with
  | [ip] => (digitsVal ip).map (fun n => (n : Rat))
  | [ip, fp] =>
    if (ip ≠ [] ∨ fp ≠ []) ∧ ip.all Char.isDigit ∧ fp.all Char.isDigit then
      some ((digitsNat ip : Rat) + (digitsNat fp : Rat) / ((10 : Rat) ^ fp.length))
    else none
  | _ => none

/-- Model of Python `float(s)` on decimal literals (optional sign). -/
def pyFloat (s : String) : Option Rat :=
  match s.toList with
  | '+' :: rest => pyFloatMag rest
  | '-' :: rest => (pyFloatMag rest).map Neg.neg
  | cs => pyFloatMag cs

/-- Model of Python `str.lower()` (ASCII case folding, which is all the
source guards compare against). -/
def pyLower (s : String) : String := ⟨s.data.map Char.toLower⟩

/-- Model of Python `int(s)`: optional sign and decimal digits. -/
def pyInt (s : String) : Option Int :=
  match s.toList with
  | '+' :: rest => (digitsVal rest).map (fun n => (n : Int))
  | '-' :: rest => (digitsVal rest).map (fun n => -(n : Int))
  | cs => (digitsVal cs).map (fun n => (n : Int))

/-- Gregorian leap-year rule, as used by `datetime`. -/
def isLeap (y : Nat) : Bool :=
  y % 4 = 0 && (y % 100 ≠ 0 || y % 400 = 0)

/-- Days in a month, as validated by `datetime`. -/
def daysInMonth (y m : Nat) : Nat :=
  if m = 1 ∨ m = 3 ∨ m = 5 ∨ m = 7 ∨ m = 8 ∨ m = 10 ∨ m = 12 then 31
  else if m = 4 ∨ m = 6 ∨ m = 9 ∨ m = 11 then 30
  else if isLeap y then 29 else 28

/-- Model of `datetime.strptime(s, "%Y-%m-%d")`: three dash-separated
numeric components with a valid month and day-of-month; `none` models
the raised `ValueError`. -/
def pyStrptimeYmd (s : String) : Option (Nat × Nat × Nat) :=
  match splitChar '-' s.toList with
  | [ys, ms, ds] =>
    (digitsVal ys).bind fun y =>
      (digitsVal ms).bind fun m =>
        (digitsVal ds).bind fun d =>
          if 1 ≤ m ∧ m ≤ 12 ∧ 1 ≤ d ∧ d ≤ daysInMonth y m then
            some (y, m, d)
          else none
  | _ => none

/-- An entry of the error-code registry: `(code, message, fatal)`. -/
structure ErrDef where
  code : Nat
  msg : String
  fatal : Bool
deriving DecidableEq, Repr

namespace errors

/-- Modelled from the spec: `importer/errors.py` is not part of the given
source; spec section 7 fixes the taxonomy and fatality of each code.
The numeric codes are arbitrary but distinct. Fatal empty-file error. -/
def EMPTY_FILE : ErrDef := ⟨1, "No rows found", true⟩

/-- Modelled from the spec: non-fatal warning for extra input fields. -/
def UNMATCHED_FIELDS : ErrDef := ⟨2, "Unmatched fields", false⟩

/-- Modelled from the spec: fatal float-parse error. -/
def FLOAT_ERROR : ErrDef := ⟨10, "Not formatted as a number", true⟩

/-- Modelled from the spec: fatal int-parse error. -/
def INT_ERROR : ErrDef := ⟨11, "Not formatted as an integer", true⟩

/-- Modelled from the spec: fatal positive-float constraint error. -/
def POS_FLOAT_ERROR : ErrDef := ⟨12, "Not a positive number", true⟩

/-- Modelled from the spec: fatal positive-int constraint error. -/
def POS_INT_ERROR : ErrDef := ⟨13, "Not a positive integer", true⟩

/-- Modelled from the spec: fatal boolean-parse error. -/
def BOOL_ERROR : ErrDef := ⟨14, "Not true or false", true⟩

/-- Modelled from the spec: fatal string-too-long error. -/
def STRING_TOO_LONG : ErrDef := ⟨15, "Value too long", true⟩

/-- Modelled from the spec: non-fatal invalid-date error. -/
def INVALID_DATE : ErrDef := ⟨16, "Invalid date (must by YYYY-MM-DD)", false⟩

end errors

/-- One decoded entry of `GenericImportEvent.errors`:
`{'code': ..., 'msg': ..., 'data': ..., 'fatal': ...}`. -/
structure EventError where
  code : Nat
  msg : String
  data : Option (List String)
  fatal : Bool
deriving DecidableEq, Repr

/-- Mutable state of a `GenericImportEvent`: the JSON `errors` text field
(decoded) and the integer `status` field. -/
structure EventState where
  errors : Option (List EventError)
  status : Int
deriving DecidableEq, Repr

namespace GenericImportEvent

def PENDING_VERIFICATION : Int := 1
def VERIFIYING : Int := 2
def FINISHED_VERIFICATION : Int := 3
def CREATING : Int := 4
def FINISHED_CREATING : Int := 5
def FAILED_FILE_VERIFICATION : Int := 6

/-- `GenericImportEvent.status_summary`. -/
def status_summary (s : Int) : String :=
  if s = PENDING_VERIFICATION then "Not Yet Started"
  else if s = VERIFIYING then "Verifying"
  else if s = FINISHED_VERIFICATION then "Verification Complete"
  else if s = CREATING then "Creating Trees"
  else if s = FAILED_FILE_VERIFICATION then "Invalid File Structure"
  else "Finished"

/-- `GenericImportEvent.errors_as_array`: decode the JSON text field,
empty/unset text decodes to the empty list. -/
def errors_as_array (e : EventState) : List EventError :=
  match e.errors with
  | none => []
  | some l => l

/-- `GenericImportEvent.append_error(err, data=None)`. -/
def append_error (e : EventState) (err : ErrDef) (data : Option (List String)) :
    EventState :=
  { e with errors := some (errors_as_array e ++ [⟨err.code, err.msg, data, err.fatal⟩]) }

/-- `GenericImportEvent.has_errors`. -/
def has_errors (e : EventState) : Bool :=
  (errors_as_array e).length > 0

/-- `GenericImportEvent._validate_main_file(datasource, fieldsource,
validate_custom_fields)`.  `datasource` is the ordered list of raw rows,
each row already decoded from its JSON `data` text to a field map;
`fieldsource` is the expected field set; the custom validator maps the
observed field set to an optional structural error.  Returns the updated
event state and the `is_valid` result. -/
def validate_main_file (e : EventState) (datasource : List (List (String × String)))
    (fieldsource : List String)
    (validate_custom_fields : List String → Option ErrDef) : EventState × Bool :=
  match datasource with
  | [] =>
    ({ append_error e errors.EMPTY_FILE none with status := FAILED_FILE_VERIFICATION },
     false)
  | row :: _ =>
    let input_fields := row.map Prod.fst
    let custom_error := validate_custom_fields input_fields
    let e1 :=
      match custom_error with
      | some ce => append_error e ce none
      | none => e
    let rem := input_fields.filter (fun f => ¬ fieldsource.contains f)
    let e2 :=
      if 0 < rem.length then append_error e1 errors.UNMATCHED_FIELDS (some rem)
      else e1
    let is_valid := custom_error.isNone && (rem.length == 0)
    if is_valid then (e2, true)
    else ({ e2 with status := FAILED_FILE_VERIFICATION }, false)

end GenericImportEvent

/-- One decoded entry of `GenericImportRow.errors`:
`{'code': ..., 'fields': ..., 'msg': ..., 'data': ..., 'fatal': ...}`. -/
structure RowError where
  code : Nat
  fields : List String
  msg : String
  data : Option (List String)
  fatal : Bool
deriving DecidableEq, Repr

/-- A typed cleaned value, as produced by the field-group validators. -/
inductive PyVal where
  | float (q : Rat)
  | int (n : Int)
  | bool (b : Bool)
  | str (s : String)
  | date (y m d : Nat)
deriving DecidableEq, Repr

/-- The per-entity-kind field catalog (`self.model_fields`), an external
collaborator of `GenericImportRow`: which field names belong to which
validation class, plus the canonical planted-date key. -/
structure ModelFields where
  POS_FLOAT_FIELDS : List String
  FLOAT_FIELDS : List String
  POS_INT_FIELDS : List String
  STRING_FIELDS : List String
  BOOLEAN_FIELDS : List String
  DATE_FIELDS : List String
  DATE_PLANTED : String
deriving DecidableEq, Repr

/-- Mutable state of a `GenericImportRow`: the raw field map (`datadict`,
the decoded `data` JSON), the decoded `errors` JSON text, and the
in-memory `cleaned` map. -/
structure RowState where
  data : List (String × String)
  errors : Option (List RowError)
  cleaned : List (String × PyVal)
deriving DecidableEq, Repr

namespace GenericImportRow

/-- `GenericImportRow.errors_as_array`. -/
def errors_as_array (r : RowState) : List RowError :=
  match r.errors with
  | none => []
  | some l => l

/-- `GenericImportRow.has_errors`. -/
def has_errors (r : RowState) : Bool :=
  (errors_as_array r).length > 0

/-- `GenericImportRow.has_fatal_error`. -/
def has_fatal_error (r : RowState) : Bool :=
  (errors_as_array r).any (fun e => e.fatal)

/-- `GenericImportRow.append_error(err, fields, data=None)`; the validators
always pass a single field name, which the source wraps into a tuple. -/
def append_error (r : RowState) (err : ErrDef) (flds : List String)
    (data : Option (List String)) : RowState :=
  { r with
    errors := some (errors_as_array r ++ [⟨err.code, flds, err.msg, data, err.fatal⟩]) }

/-- Inner step of `get_fields_with_error`: `data[field] = datadict[field]`.
The source indexes `datadict[field]` directly, so a referenced field
missing from the raw data raises KeyError, modelled as `none`. -/
def gfwe_field (dd : List (String × String)) (acc : Option (List (String × String)))
    (f : String) : Option (List (String × String)) :=
  acc.bind fun m => (getk dd f).map fun v => setk m f v

/-- Per-error step of `get_fields_with_error`: `for field in e['fields']`. -/
def gfwe_error (dd : List (String × String)) (acc : Option (List (String × String)))
    (e : RowError) : Option (List (String × String)) :=
  e.fields.foldl (gfwe_field dd) acc

/-- `GenericImportRow.get_fields_with_error`: builds the field-name to
raw-value dict over every field referenced by any stored error. -/
def get_fields_with_error (r : RowState) : Option (List (String × String)) :=
  (errors_as_array r).foldl (gfwe_error r.data) (some [])

/-- `GenericImportRow.safe_float(fld)`: the bare `except` catches both a
missing key and a parse failure; `False` is modelled as `none`. -/
def safe_float (r : RowState) (fld : String) : RowState × Option Rat :=
  match (getk r.data fld).bind pyFloat with
  | some q => (r, some q)
  | none => (append_error r errors.FLOAT_ERROR [fld] none, none)

/-- `GenericImportRow.safe_bool(fld)`: returns `(success, optional value)`. -/
def safe_bool (r : RowState) (fld : String) : RowState × (Bool × Option Bool) :=
  let v := pyLower ((getk r.data fld).getD "")
  if v = "" then (r, (true, none))
  else if v = "true" ∨ v = "t" ∨ v = "yes" then (r, (true, some true))
  else if v = "false" ∨ v = "f" ∨ v = "no" then (r, (true, some false))
  else (append_error r errors.BOOL_ERROR [fld] none, (false, none))

/-- `GenericImportRow.safe_int(fld)`. -/
def safe_int (r : RowState) (fld : String) : RowState × Option Int :=
  match (getk r.data fld).bind pyInt with
  | some n => (r, some n)
  | none => (append_error r errors.INT_ERROR [fld] none, none)

/-- `GenericImportRow.safe_pos_int(fld)`. -/
def safe_pos_int (r : RowState) (fld : String) : RowState × Option Int :=
  match safe_int r fld with
  | (r1, none) => (r1, none)
  | (r1, some n) =>
    if n < 0 then (append_error r1 errors.POS_INT_ERROR [fld] none, none)
    else (r1, some n)

/-- `GenericImportRow.safe_pos_float(fld)`. -/
def safe_pos_float (r : RowState) (fld : String) : RowState × Option Rat :=
  match safe_float r fld with
  | (r1, none) => (r1, none)
  | (r1, some q) =>
    if q < 0 then (append_error r1 errors.POS_FLOAT_ERROR [fld] none, none)
    else (r1, some q)

/-- `safe_pos_float` wrapped to the tagged cleaned-value type. -/
def safe_pos_float_v (r : RowState) (fld : String) : RowState × Option PyVal :=
  ((safe_pos_float r fld).1, (safe_pos_float r fld).2.map PyVal.float)

/-- `safe_float` wrapped to the tagged cleaned-value type. -/
def safe_float_v (r : RowState) (fld : String) : RowState × Option PyVal :=
  ((safe_float r fld).1, (safe_float r fld).2.map PyVal.float)

/-- `safe_pos_int` wrapped to the tagged cleaned-value type. -/
def safe_pos_int_v (r : RowState) (fld : String) : RowState × Option PyVal :=
  ((safe_pos_int r fld).1, (safe_pos_int r fld).2.map PyVal.int)

/-- One iteration of the `cleanup` loop body inside
`validate_numeric_fields`: skip a field that is absent or maps to the
empty string, otherwise run the safe conversion; a failed conversion
sets the error flag, a successful one writes the field to `cleaned`. -/
def numeric_step (fn : RowState → String → RowState × Option PyVal)
    (r : RowState) (f : String) : RowState × Bool :=
  match getk r.data f with
  | none => (r, false)
  | some s =>
    if s = "" then (r, false)
    else
      match fn r f with
      | (r1, none) => (r1, true)
      | (r1, some v) => ({ r1 with cleaned := setk r1.cleaned f v }, false)

/-- One iteration of the `validate_boolean_fields` loop body: a field
present in the raw data is parsed with `safe_bool`; only a successful
parse of a non-empty value is written to `cleaned`, every other present
value sets the error flag. -/
def bool_step (r : RowState) (f : String) : RowState × Bool :=
  match getk r.data f with
  | none => (r, false)
  | some _ =>
    match safe_bool r f with
    | (r1, (true, some v)) => ({ r1 with cleaned := setk r1.cleaned f (.bool v) }, false)
    | (r1, _) => (r1, true)

/-- One iteration of the `validate_string_fields` loop body. -/
def string_step (r : RowState) (f : String) : RowState × Bool :=
  match getk r.data f with
  | none => (r, false)
  | some s =>
    if s = "" then (r, false)
    else if 255 < s.length then (append_error r errors.STRING_TOO_LONG [f] none, true)
    else ({ r with cleaned := setk r.cleaned f (.str s) }, false)

/-- One iteration of the `validate_date_fields` loop body: both the
cleaned entry and the error are keyed by the canonical
`DATE_PLANTED` field, not by the triggering field. -/
def date_step (planted : String) (r : RowState) (f : String) : RowState × Bool :=
  match getk r.data f with
  | none => (r, false)
  | some s =>
    if s = "" then (r, false)
    else
      match pyStrptimeYmd s with
      | some ymd =>
        ({ r with cleaned := setk r.cleaned planted (.date ymd.1 ymd.2.1 ymd.2.2) }, false)
      | none => (append_error r errors.INVALID_DATE [planted] none, true)

/-- The shared field-loop of every field-group validator: left-to-right
over the declared fields, accumulating the `has_errors` flag. -/
def loopV (step : RowState → String → RowState × Bool) :
    List String → RowState → Bool → RowState × Bool
  | [], r, he => (r, he)
  | f :: rest, r, he => loopV step rest (step r f).1 (he || (step r f).2)

/-- The inner `cleanup(fields, fn)` helper of `validate_numeric_fields`;
its `has_errors` flag starts false. -/
def cleanup (fn : RowState → String → RowState × Option PyVal)
    (fields : List String) (r : RowState) : RowState × Bool :=
  loopV (numeric_step fn) fields r false

/-- `GenericImportRow.validate_numeric_fields`: three `cleanup` passes;
the returned flag is `pfloat_ok and float_ok and int_ok`, the conjunction
of the three per-pass `has_errors` flags. -/
def validate_numeric_fields (mf : ModelFields) (r : RowState) : RowState × Bool :=
  let pfloat := cleanup safe_pos_float_v mf.POS_FLOAT_FIELDS r
  let fl := cleanup safe_float_v mf.FLOAT_FIELDS pfloat.1
  let pint := cleanup safe_pos_int_v mf.POS_INT_FIELDS fl.1
  (pint.1, pfloat.2 && fl.2 && pint.2)

/-- `GenericImportRow.validate_boolean_fields`. -/
def validate_boolean_fields (mf : ModelFields) (r : RowState) : RowState × Bool :=
  loopV bool_step mf.BOOLEAN_FIELDS r false

/-- `GenericImportRow.validate_string_fields`. -/
def validate_string_fields (mf : ModelFields) (r : RowState) : RowState × Bool :=
  loopV string_step mf.STRING_FIELDS r false

/-- `GenericImportRow.validate_date_fields`. -/
def validate_date_fields (mf : ModelFields) (r : RowState) : RowState × Bool :=
  loopV (date_step mf.DATE_PLANTED) mf.DATE_FIELDS r false

/-- `GenericImportRow.validate_and_convert_datatypes`: runs the four
field-group validators in order, discarding their flags. -/
def validate_and_convert_datatypes (mf : ModelFields) (r : RowState) : RowState :=
  let r1 := (validate_numeric_fields mf r).1
  let r2 := (validate_boolean_fields mf r1).1
  let r3 := (validate_string_fields mf r2).1
  (validate_date_fields mf r3).1

end GenericImportRow

/-! Characterizations of the field-loop steps.  Each step of a field-group
validator, applied to a field `f`, does exactly one of four things, and
which one depends only on the raw data: nothing (`skip`), set the error
flag without recording an error (`flagOnly`), write one cleaned value
under a key determined by `f` (`clean`), or append one error record
naming that key (`err`).  `StepSpec` states this; it is proved for each
concrete step and drives the generic loop lemmas. -/

inductive StepRes where
  | skip
  | flagOnly
  | clean (v : PyVal)
  | err (ed : ErrDef)
deriving DecidableEq, Repr

def resFlag : StepRes → Bool
  | .skip => false
  | .flagOnly => true
  | .clean _ => false
  | .err _ => true

def resIsErr : StepRes → Bool
  | .err _ => true
  | _ => false

/-- The error record a validator step appends for tag `t`. -/
def mkRowErr (ed : ErrDef) (t : String) : RowError :=
  ⟨ed.code, [t], ed.msg, none, ed.fatal⟩

/-- A validator step is fully described by a decision function on the raw
data and a tag function giving the cleaned/error key for each field. -/
def StepSpec (step : RowState → String → RowState × Bool)
    (dec : List (String × String) → String → StepRes)
    (tag : String → String) : Prop :=
  ∀ r f,
    step r f =
      match dec r.data f with
      | .skip => (r, false)
      | .flagOnly => (r, true)
      | .clean v => ({ r with cleaned := setk r.cleaned (tag f) v }, false)
      | .err ed =>
        ({ r with
           errors := some (GenericImportRow.errors_as_array r ++ [mkRowErr ed (tag f)]) },
         true)

/-- Decision function of the positive-float `cleanup` pass. -/
def posFloatDec (d : List (String × String)) (f : String) : StepRes :=
  match getk d f with
  | none => .skip
  | some s =>
    if s = "" then .skip
    else
      match pyFloat s with
      | none => .err errors.FLOAT_ERROR
      | some q => if q < 0 then .err errors.POS_FLOAT_ERROR else .clean (.float q)

/-- Decision function of the plain-float `cleanup` pass. -/
def floatDec (d : List (String × String)) (f : String) : StepRes :=
  match getk d f with
  | none => .skip
  | some s =>
    if s = "" then .skip
    else
      match pyFloat s with
      | none => .err errors.FLOAT_ERROR
      | some q => .clean (.float q)

/-- Decision function of the positive-int `cleanup` pass. -/
def posIntDec (d : List (String × String)) (f : String) : StepRes :=
  match getk d f with
  | none => .skip
  | some s =>
    if s = "" then .skip
    else
      match pyInt s with
      | none => .err errors.INT_ERROR
      | some n => if n < 0 then .err errors.POS_INT_ERROR else .clean (.int n)

/-- Decision function of the boolean validator loop. -/
def boolDec (d : List (String × String)) (f : String) : StepRes :=
  match getk d f with
  | none => .skip
  | some s =>
    if pyLower s = "" then .flagOnly
    else if pyLower s = "true" ∨ pyLower s = "t" ∨ pyLower s = "yes" then
      .clean (.bool true)
    else if pyLower s = "false" ∨ pyLower s = "f" ∨ pyLower s = "no" then
      .clean (.bool false)
    else .err errors.BOOL_ERROR

/-- Decision function of the string validator loop. -/
def stringDec (d : List (String × String)) (f : String) : StepRes :=
  match getk d f with
  | none => .skip
  | some s =>
    if s = "" then .skip
    else if 255 < s.length then .err errors.STRING_TOO_LONG
    else .clean (.str s)

/-- Decision function of the date validator loop. -/
def dateDec (d : List (String × String)) (f : String) : StepRes :=
  match getk d f with
  | none => .skip
  | some s =>
    if s = "" then .skip
    else
      match pyStrptimeYmd s with
      | some ymd => .clean (.date ymd.1 ymd.2.1 ymd.2.2)
      | none => .err errors.INVALID_DATE

namespace GenericImportRow

theorem stepSpec_bool : StepSpec bool_step boolDec (fun f => f) := by
  intro r f
  unfold bool_step boolDec safe_bool append_error mkRowErr
  cases hk : getk r.data f with
  | none => rfl
  | some s =>
    simp only [Option.getD_some]
    by_cases h0 : pyLower s = ""
    · simp [h0]
    · by_cases h1 : pyLower s = "true" ∨ pyLower s = "t" ∨ pyLower s = "yes"
      · simp [h0, h1]
      · by_cases h2 : pyLower s = "false" ∨ pyLower s = "f" ∨ pyLower s = "no"
        · simp [h0, h1, h2]
        · simp [h0, h1, h2]

theorem stepSpec_string : StepSpec string_step stringDec (fun f => f) := by
  intro r f
  unfold string_step stringDec append_error mkRowErr
  cases hk : getk r.data f with
  | none => rfl
  | some s =>
    by_cases h0 : s = ""
    · simp [h0]
    · by_cases h1 : 255 < s.length
      · simp [h0, h1]
      · simp [h0, h1]

theorem stepSpec_date (planted : String) :
    StepSpec (date_step planted) dateDec (fun _ => planted) := by
  intro r f
  unfold date_step dateDec append_error mkRowErr
  cases hk : getk r.data f with
  | none => rfl
  | some s =>
    by_cases h0 : s = ""
    · simp [h0]
    · cases hp : pyStrptimeYmd s with
      | some ymd => simp [h0, hp]
      | none => simp [h0, hp]

theorem stepSpec_pos_float :
    StepSpec (numeric_step safe_pos_float_v) posFloatDec (fun f => f) := by
  intro r f
  unfold numeric_step posFloatDec safe_pos_float_v safe_pos_float safe_float
      append_error mkRowErr
  cases hk : getk r.data f with
  | none => rfl
  | some s =>
    by_cases h0 : s = ""
    · simp [h0]
    · cases hp : pyFloat s with
      | none => simp [hk, h0, hp]
      | some q =>
        by_cases hq : q < 0
        · simp [hk, h0, hp, hq]
        · simp [hk, h0, hp, hq]

theorem stepSpec_float :
    StepSpec (numeric_step safe_float_v) floatDec (fun f => f) := by
  intro r f
  unfold numeric_step floatDec safe_float_v safe_float append_error mkRowErr
  cases hk : getk r.data f with
  | none => rfl
  | some s =>
    by_cases h0 : s = ""
    · simp [h0]
    · cases hp : pyFloat s with
      | none => simp [hk, h0, hp]
      | some q => simp [hk, h0, hp]

/-- Number of stored errors whose `fields` list names `g`. -/
def countNaming (g : String) (r : RowState) : Nat :=
  (errors_as_array r).countP (fun er => decide (g ∈ er.fields))

/-- Number of stored errors naming `g` and carrying error code `c`. -/
def countNamingCode (g : String) (c : Nat) (r : RowState) : Nat :=
  (errors_as_array r).countP (fun er => decide (g ∈ er.fields ∧ er.code = c))

theorem stepSpec_pos_int :
    StepSpec (numeric_step safe_pos_int_v) posIntDec (fun f => f) := by
  intro r f
  unfold numeric_step posIntDec safe_pos_int_v safe_pos_int safe_int
      append_error mkRowErr
  cases hk : getk r.data f with
  | none => rfl
  | some s =>
    by_cases h0 : s = ""
    · simp [h0]
    · cases hp : pyInt s with
      | none => simp [hk, h0, hp]
      | some n =>
        by_cases hn : n < 0
        · simp [hk, h0, hp, hn]
        · simp [hk, h0, hp, hn]

theorem step_data {step dec tag} (h : StepSpec step dec tag) (r : RowState) (f : String) :
    ((step r f).1).data = r.data := by
  rw [h r f]; cases dec r.data f <;> rfl

theorem step_flag {step dec tag} (h : StepSpec step dec tag) (r : RowState) (f : String) :
    (step r f).2 = resFlag (dec r.data f) := by
  rw [h r f]; cases dec r.data f <;> rfl

theorem loopV_data {step dec tag} (h : StepSpec step dec tag) :
    ∀ (fields : List String) (r : RowState) (he : Bool),
      ((loopV step fields r he).1).data = r.data := by
  intro fields
  induction fields with
  | nil => intro r he; rfl
  | cons f rest ih =>
    intro r he
    show ((loopV step rest (step r f).1 (he || (step r f).2)).1).data = r.data
    rw [ih, step_data h]

theorem loopV_cleaned_frame {step dec tag} (h : StepSpec step dec tag) :
    ∀ (fields : List String) (r : RowState) (he : Bool) (g : String),
      (∀ f ∈ fields, tag f ≠ g) →
      getk ((loopV step fields r he).1).cleaned g = getk r.cleaned g := by
  intro fields
  induction fields with
  | nil => intro r he g _; rfl
  | cons f rest ih =>
    intro r he g hg
    show getk ((loopV step rest (step r f).1 (he || (step r f).2)).1).cleaned g
        = getk r.cleaned g
    rw [ih _ _ g (fun f' hf' => hg f' (List.mem_cons_of_mem f hf'))]
    have hf : tag f ≠ g := hg f (List.mem_cons_self f rest)
    rw [h r f]
    cases dec r.data f with
    | skip => rfl
    | flagOnly => rfl
    | err ed => rfl
    | clean v => exact getk_setk_ne _ _ _ _ (Ne.symm hf)

theorem loopV_errs {step dec tag} (h : StepSpec step dec tag) :
    ∀ (fields : List String) (r : RowState) (he : Bool),
      ∃ tail,
        errors_as_array ((loopV step fields r he).1) = errors_as_array r ++ tail ∧
        ∀ er ∈ tail, ∃ f ∈ fields, ∃ ed, er = mkRowErr ed (tag f) := by
  intro fields
  induction fields with
  | nil => intro r he; exact ⟨[], by simp [loopV]⟩
  | cons f rest ih =>
    intro r he
    obtain ⟨tail, ht, hmem⟩ := ih (step r f).1 (he || (step r f).2)
    show ∃ tail2,
        errors_as_array ((loopV step rest (step r f).1 (he || (step r f).2)).1)
          = errors_as_array r ++ tail2 ∧ _
    have hstep := h r f
    cases hd : dec r.data f with
    | skip =>
      rw [hd] at hstep
      refine ⟨tail, ?_, ?_⟩
      · rw [ht, hstep]
      · intro er her
        obtain ⟨f', hf', ed, heq⟩ := hmem er her
        exact ⟨f', List.mem_cons_of_mem f hf', ed, heq⟩
    | flagOnly =>
      rw [hd] at hstep
      refine ⟨tail, ?_, ?_⟩
      · rw [ht, hstep]
      · intro er her
        obtain ⟨f', hf', ed, heq⟩ := hmem er her
        exact ⟨f', List.mem_cons_of_mem f hf', ed, heq⟩
    | clean v =>
      rw [hd] at hstep
      refine ⟨tail, ?_, ?_⟩
      · rw [ht, hstep]; rfl
      · intro er her
        obtain ⟨f', hf', ed, heq⟩ := hmem er her
        exact ⟨f', List.mem_cons_of_mem f hf', ed, heq⟩
    | err ed =>
      rw [hd] at hstep
      refine ⟨mkRowErr ed (tag f) :: tail, ?_, ?_⟩
      · rw [ht, hstep]
        show errors_as_array r ++ [mkRowErr ed (tag f)] ++ tail
            = errors_as_array r ++ (mkRowErr ed (tag f) :: tail)
        simp
      · intro er her
        rcases List.mem_cons.mp her with heq | htl
        · exact ⟨f, List.mem_cons_self f rest, ed, heq⟩
        · obtain ⟨f', hf', ed', heq⟩ := hmem er htl
          exact ⟨f', List.mem_cons_of_mem f hf', ed', heq⟩

theorem loopV_countP_frame {step dec tag} (h : StepSpec step dec tag)
    (fields : List String) (r : RowState) (he : Bool) (p : RowError → Bool)
    (hp : ∀ f ∈ fields, ∀ ed, p (mkRowErr ed (tag f)) = false) :
    (errors_as_array ((loopV step fields r he).1)).countP p
      = (errors_as_array r).countP p := by
  obtain ⟨tail, ht, hmem⟩ := loopV_errs h fields r he
  rw [ht, List.countP_append]
  have hz : tail.countP p = 0 := by
    rw [List.countP_eq_zero]
    intro er her
    obtain ⟨f, hf, ed, heq⟩ := hmem er her
    simp [heq, hp f hf ed]
  rw [hz]
  simp

theorem loopV_flag {step dec tag} (h : StepSpec step dec tag) :
    ∀ (fields : List String) (r : RowState) (he : Bool),
      (loopV step fields r he).2
        = (he || fields.any (fun f => resFlag (dec r.data f))) := by
  intro fields
  induction fields with
  | nil => intro r he; simp [loopV]
  | cons f rest ih =>
    intro r he
    show (loopV step rest (step r f).1 (he || (step r f).2)).2 = _
    rw [ih, step_data h, step_flag h, List.any_cons, Bool.or_assoc]

theorem loopV_errlen {step dec tag} (h : StepSpec step dec tag) :
    ∀ (fields : List String) (r : RowState) (he : Bool),
      (errors_as_array ((loopV step fields r he).1)).length
        = (errors_as_array r).length
          + fields.countP (fun f => resIsErr (dec r.data f)) := by
  intro fields
  induction fields with
  | nil => intro r he; simp [loopV]
  | cons f rest ih =>
    intro r he
    show (errors_as_array ((loopV step rest (step r f).1 (he || (step r f).2)).1)).length = _
    rw [ih, step_data h, List.countP_cons]
    have hstep := h r f
    cases hd : dec r.data f with
    | skip => rw [hd] at hstep; rw [hstep]; simp [resIsErr]
    | flagOnly => rw [hd] at hstep; rw [hstep]; simp [resIsErr]
    | clean v =>
      rw [hd] at hstep; rw [hstep]; simp only [resIsErr]
      show (errors_as_array r).length + _ = _
      simp
    | err ed =>
      rw [hd] at hstep; rw [hstep]
      show (errors_as_array r ++ [mkRowErr ed (tag f)]).length + _ = _
      simp [resIsErr]
      omega

/-- Dichotomy at a tracked field `f`: provided `f` occurs exactly once in
the processed field list, no other processed field shares its tag, and
its tag is not yet cleaned, the final cleaned entry and error counts at
`tag f` are exactly determined by the step decision for `f`. -/
theorem loopV_dich {step dec tag} (h : StepSpec step dec tag) :
    ∀ (fields : List String) (f : String) (r : RowState) (he : Bool),
      fields.count f = 1 →
      (∀ g ∈ fields, tag g = tag f → g = f) →
      getk r.cleaned (tag f) = none →
      ((dec r.data f = .skip ∨ dec r.data f = .flagOnly) →
          getk ((loopV step fields r he).1).cleaned (tag f) = none ∧
          countNaming (tag f) ((loopV step fields r he).1)
            = countNaming (tag f) r) ∧
      (∀ v, dec r.data f = .clean v →
          getk ((loopV step fields r he).1).cleaned (tag f) = some v ∧
          countNaming (tag f) ((loopV step fields r he).1)
            = countNaming (tag f) r) ∧
      (∀ ed, dec r.data f = .err ed →
          getk ((loopV step fields r he).1).cleaned (tag f) = none ∧
          countNaming (tag f) ((loopV step fields r he).1)
            = countNaming (tag f) r + 1 ∧
          countNamingCode (tag f) ed.code ((loopV step fields r he).1)
            = countNamingCode (tag f) ed.code r + 1) := by
  intro fields
  induction fields with
  | nil =>
    intro f r he hcnt htag hclean
    simp at hcnt
  | cons g rest ih =>
    intro f r he hcnt htag hclean
    simp only [loopV]
    by_cases hgf : g = f
    · subst hgf
      have hzero : rest.count g = 0 := by
        simp [List.count_cons] at hcnt
        omega
      have hrest : g ∉ rest := List.count_eq_zero.mp hzero
      have htagrest : ∀ g' ∈ rest, tag g' ≠ tag g := by
        intro g' hg' htg
        exact hrest ((htag g' (List.mem_cons_of_mem g hg') htg) ▸ hg')
      have hp : ∀ f' ∈ rest, ∀ ed,
          (fun er => decide ((tag g) ∈ er.fields)) (mkRowErr ed (tag f')) = false := by
        intro f' hf' ed
        simp [mkRowErr]
        exact fun hh => (htagrest f' hf' hh.symm)
      have hstep := h r g
      cases hd : dec r.data g with
      | skip =>
        rw [hd] at hstep
        refine ⟨fun _ => ?_, fun v hv => by simp at hv, fun ed hederr => by simp at hederr⟩
        rw [hstep]
        dsimp only
        constructor
        · rw [loopV_cleaned_frame h rest r _ (tag g) htagrest]
          exact hclean
        · unfold countNaming
          exact loopV_countP_frame h rest r _ _ hp
      | flagOnly =>
        rw [hd] at hstep
        refine ⟨fun _ => ?_, fun v hv => by simp at hv, fun ed hederr => by simp at hederr⟩
        rw [hstep]
        dsimp only
        constructor
        · rw [loopV_cleaned_frame h rest r _ (tag g) htagrest]
          exact hclean
        · unfold countNaming
          exact loopV_countP_frame h rest r _ _ hp
      | clean v =>
        rw [hd] at hstep
        refine ⟨fun hcontra => by rcases hcontra with hh | hh <;> simp at hh,
                fun v' hv => ?_, fun ed hederr => by simp at hederr⟩
        injection hv with hvv
        subst hvv
        rw [hstep]
        dsimp only
        constructor
        · rw [loopV_cleaned_frame h rest _ _ (tag g) htagrest]
          exact getk_setk_self _ _ _
        · unfold countNaming
          rw [loopV_countP_frame h rest _ _ _ hp]
          rfl
      | err ed =>
        rw [hd] at hstep
        refine ⟨fun hcontra => by rcases hcontra with hh | hh <;> simp at hh,
                fun v hv => by simp at hv, fun ed' hederr => ?_⟩
        injection hederr with hede
        subst hede
        rw [hstep]
        dsimp only
        refine ⟨?_, ?_, ?_⟩
        · rw [loopV_cleaned_frame h rest _ _ (tag g) htagrest]
          exact hclean
        · unfold countNaming
          rw [loopV_countP_frame h rest _ _ _ hp]
          show (errors_as_array r ++ [mkRowErr ed (tag g)]).countP _ = _
          simp [List.countP_append, List.countP_cons, mkRowErr]
        · have hpc : ∀ f' ∈ rest, ∀ ed'',
              (fun er => decide ((tag g) ∈ er.fields ∧ er.code = ed.code))
                (mkRowErr ed'' (tag f')) = false := by
            intro f' hf' ed''
            simp [mkRowErr]
            exact fun hh => absurd hh.symm (htagrest f' hf')
          unfold countNamingCode
          rw [loopV_countP_frame h rest _ _ _ hpc]
          show (errors_as_array r ++ [mkRowErr ed (tag g)]).countP _ = _
          simp [List.countP_append, List.countP_cons, mkRowErr]
    · have hfg : ¬ f = g := fun hh => hgf hh.symm
      have hcnt' : rest.count f = 1 := by
        simp [List.count_cons, hfg] at hcnt
        exact hcnt
      have htag' : ∀ g' ∈ rest, tag g' = tag f → g' = f :=
        fun g' hg' => htag g' (List.mem_cons_of_mem g hg')
      have htagg : tag g ≠ tag f := fun hh => hgf (htag g (List.mem_cons_self g rest) hh)
      have hne : tag f ≠ tag g := Ne.symm htagg
      have hstep := h r g
      cases hd2 : dec r.data g with
      | skip =>
        rw [hd2] at hstep
        rw [hstep]
        dsimp only
        exact ih f r _ hcnt' htag' hclean
      | flagOnly =>
        rw [hd2] at hstep
        rw [hstep]
        dsimp only
        exact ih f r _ hcnt' htag' hclean
      | clean v =>
        rw [hd2] at hstep
        rw [hstep]
        dsimp only
        have hclean1 :
            getk (setk r.cleaned (tag g) v) (tag f) = none := by
          rw [getk_setk_ne _ _ _ _ hne]
          exact hclean
        exact ih f { r with cleaned := setk r.cleaned (tag g) v } _ hcnt' htag' hclean1
      | err ed =>
        rw [hd2] at hstep
        rw [hstep]
        dsimp only
        have e2 : countNaming (tag f)
            { r with errors := some (errors_as_array r ++ [mkRowErr ed (tag g)]) }
            = countNaming (tag f) r := by
          unfold countNaming
          show (errors_as_array r ++ [mkRowErr ed (tag g)]).countP _ = _
          simp [List.countP_append, List.countP_cons, mkRowErr, hne]
        have e3 : ∀ c, countNamingCode (tag f) c
            { r with errors := some (errors_as_array r ++ [mkRowErr ed (tag g)]) }
            = countNamingCode (tag f) c r := by
          intro c
          unfold countNamingCode
          show (errors_as_array r ++ [mkRowErr ed (tag g)]).countP _ = _
          simp [List.countP_append, List.countP_cons, mkRowErr, hne]
        obtain ⟨ihA, ihB, ihC⟩ :=
          ih f { r with errors := some (errors_as_array r ++ [mkRowErr ed (tag g)]) }
            (he || true) hcnt' htag' hclean
        refine ⟨fun hdf => ?_, fun v hv => ?_, fun ed' hederr => ?_⟩
        · obtain ⟨c1, c2⟩ := ihA hdf
          exact ⟨c1, by rw [c2, e2]⟩
        · obtain ⟨c1, c2⟩ := ihB v hv
          exact ⟨c1, by rw [c2, e2]⟩
        · obtain ⟨c1, c2, c3⟩ := ihC ed' hederr
          exact ⟨c1, by rw [c2, e2], by rw [c3, e3 ed'.code]⟩

end GenericImportRow

namespace GenericImportRow

/-- Validator loops whose step never merely flags: the final flag is
equivalent to the stored error list having grown. -/
theorem noflag_flag_iff_errlen {step dec tag} (h : StepSpec step dec tag)
    (hnf : ∀ d f, resFlag (dec d f) = resIsErr (dec d f))
    (fields : List String) (r : RowState) :
    ((loopV step fields r false).2 = true ↔
      (errors_as_array (loopV step fields r false).1).length
        > (errors_as_array r).length) := by
  rw [loopV_flag h, loopV_errlen h]
  simp only [Bool.false_or]
  constructor
  · intro ha
    obtain ⟨f, hf, hpf⟩ := List.any_eq_true.mp ha
    have hgt : 0 < fields.countP (fun f => resIsErr (dec r.data f)) :=
      List.countP_pos_iff.mpr ⟨f, hf, by rw [← hnf r.data f]; exact hpf⟩
    omega
  · intro hl
    have h0 : 0 < fields.countP (fun f => resIsErr (dec r.data f)) := by omega
    obtain ⟨f, hf, hpf⟩ := List.countP_pos_iff.mp h0
    exact List.any_eq_true.mpr ⟨f, hf, by rw [hnf r.data f]; exact hpf⟩

theorem stringDec_noflag (d : List (String × String)) (f : String) :
    resFlag (stringDec d f) = resIsErr (stringDec d f) := by
  unfold stringDec
  cases getk d f with
  | none => rfl
  | some s =>
    by_cases h0 : s = ""
    · simp [h0, resFlag, resIsErr]
    · by_cases h1 : 255 < s.length
      · simp [h0, h1, resFlag, resIsErr]
      · simp [h0, h1, resFlag, resIsErr]

theorem dateDec_noflag (d : List (String × String)) (f : String) :
    resFlag (dateDec d f) = resIsErr (dateDec d f) := by
  unfold dateDec
  cases getk d f with
  | none => rfl
  | some s =>
    by_cases h0 : s = ""
    · simp [h0, resFlag, resIsErr]
    · cases hp : pyStrptimeYmd s with
      | some ymd => simp [h0, hp, resFlag, resIsErr]
      | none => simp [h0, hp, resFlag, resIsErr]

theorem any_iff_exists_of_pointwise {p : String → Bool} {P : String → Prop}
    (hpt : ∀ f, p f = true ↔ P f) (l : List String) :
    l.any p = true ↔ ∃ f ∈ l, P f := by
  rw [List.any_eq_true]
  constructor
  · rintro ⟨f, hf, hpf⟩; exact ⟨f, hf, (hpt f).mp hpf⟩
  · rintro ⟨f, hf, hPf⟩; exact ⟨f, hf, (hpt f).mpr hPf⟩

theorem boolDec_flag_iff (d : List (String × String)) (f : String) :
    resFlag (boolDec d f) = true ↔
      ∃ s, getk d f = some s ∧
        pyLower s ∉ (["true", "t", "yes", "false", "f", "no"] : List String) := by
  unfold boolDec
  cases hk : getk d f with
  | none => simp [resFlag]
  | some s =>
    simp only [Option.some.injEq, exists_eq_left', List.mem_cons, List.mem_singleton,
      List.not_mem_nil]
    by_cases h0 : pyLower s = ""
    · simp [h0, resFlag]
    · by_cases h1 : pyLower s = "true" ∨ pyLower s = "t" ∨ pyLower s = "yes"
      · simp [h0, h1, resFlag]
        tauto
      · by_cases h2 : pyLower s = "false" ∨ pyLower s = "f" ∨ pyLower s = "no"
        · simp [h0, h1, h2, resFlag]
        · simp [h0, h1, h2, resFlag]

theorem posFloatDec_flag_iff (d : List (String × String)) (f : String) :
    resFlag (posFloatDec d f) = true ↔
      ∃ s, getk d f = some s ∧ s ≠ "" ∧
        (match pyFloat s with | none => True | some q => q < 0) := by
  unfold posFloatDec
  cases hk : getk d f with
  | none => simp [resFlag]
  | some s =>
    simp only [Option.some.injEq, exists_eq_left']
    by_cases h0 : s = ""
    · simp [h0, resFlag]
    · cases hp : pyFloat s with
      | none => simp [h0, hp, resFlag]
      | some q =>
        by_cases hq : q < 0
        · simp [h0, hp, hq, resFlag]
        · simp [h0, hp, hq, resFlag]

theorem floatDec_flag_iff (d : List (String × String)) (f : String) :
    resFlag (floatDec d f) = true ↔
      ∃ s, getk d f = some s ∧ s ≠ "" ∧ pyFloat s = none := by
  unfold floatDec
  cases hk : getk d f with
  | none => simp [resFlag]
  | some s =>
    simp only [Option.some.injEq, exists_eq_left']
    by_cases h0 : s = ""
    · simp [h0, resFlag]
    · cases hp : pyFloat s with
      | none => simp [h0, hp, resFlag]
      | some q => simp [h0, hp, resFlag]

theorem posIntDec_flag_iff (d : List (String × String)) (f : String) :
    resFlag (posIntDec d f) = true ↔
      ∃ s, getk d f = some s ∧ s ≠ "" ∧
        (match pyInt s with | none => True | some n => n < 0) := by
  unfold posIntDec
  cases hk : getk d f with
  | none => simp [resFlag]
  | some s =>
    simp only [Option.some.injEq, exists_eq_left']
    by_cases h0 : s = ""
    · simp [h0, resFlag]
    · cases hp : pyInt s with
      | none => simp [h0, hp, resFlag]
      | some n =>
        by_cases hn : n < 0
        · simp [h0, hp, hn, resFlag]
        · simp [h0, hp, hn, resFlag]

theorem validate_numeric_flag (mf : ModelFields) (r : RowState) :
    (validate_numeric_fields mf r).2
      = (mf.POS_FLOAT_FIELDS.any (fun f => resFlag (posFloatDec r.data f))
        && mf.FLOAT_FIELDS.any (fun f => resFlag (floatDec r.data f))
        && mf.POS_INT_FIELDS.any (fun f => resFlag (posIntDec r.data f))) := by
  simp only [validate_numeric_fields, cleanup]
  rw [loopV_flag stepSpec_pos_int, loopV_flag stepSpec_float, loopV_flag stepSpec_pos_float]
  rw [loopV_data stepSpec_float, loopV_data stepSpec_pos_float]
  simp

theorem validate_bool_flag (mf : ModelFields) (r : RowState) :
    (validate_boolean_fields mf r).2
      = mf.BOOLEAN_FIELDS.any (fun f => resFlag (boolDec r.data f)) := by
  unfold validate_boolean_fields
  rw [loopV_flag stepSpec_bool]
  simp

theorem pyLower_eq_empty_iff (s : String) : pyLower s = "" ↔ s = "" := by
  unfold pyLower
  constructor
  · intro h
    have hd : s.data.map Char.toLower = [] := congrArg String.data h
    cases s with
    | mk d =>
      simp at hd
      simp [hd]
  · intro h
    subst h
    rfl

theorem countNaming_frame {step dec tag} (h : StepSpec step dec tag)
    (fields : List String) (r : RowState) (he : Bool) (g : String)
    (hg : ∀ f ∈ fields, tag f ≠ g) :
    countNaming g ((loopV step fields r he).1) = countNaming g r := by
  unfold countNaming
  apply loopV_countP_frame h fields r he
  intro f hf ed
  simp [mkRowErr]
  exact fun hh => hg f hf hh.symm

theorem countNamingCode_frame {step dec tag} (h : StepSpec step dec tag)
    (fields : List String) (r : RowState) (he : Bool) (g : String) (c : Nat)
    (hg : ∀ f ∈ fields, tag f ≠ g) :
    countNamingCode g c ((loopV step fields r he).1) = countNamingCode g c r := by
  unfold countNamingCode
  apply loopV_countP_frame h fields r he
  intro f hf ed
  simp [mkRowErr]
  exact fun hh => absurd hh.symm (hg f hf)

/-- Composite dichotomy through all three numeric passes for a field
declared positive-float only. -/
theorem numeric_pipeline_pf (mf : ModelFields) (r : RowState) (f : String)
    (hcnt : mf.POS_FLOAT_FIELDS.count f = 1)
    (hnF : ∀ g ∈ mf.FLOAT_FIELDS, g ≠ f)
    (hnI : ∀ g ∈ mf.POS_INT_FIELDS, g ≠ f)
    (hclean : getk r.cleaned f = none) :
    ((posFloatDec r.data f = .skip ∨ posFloatDec r.data f = .flagOnly) →
       getk ((validate_numeric_fields mf r).1).cleaned f = none ∧
       countNaming f ((validate_numeric_fields mf r).1) = countNaming f r) ∧
    (∀ v, posFloatDec r.data f = .clean v →
       getk ((validate_numeric_fields mf r).1).cleaned f = some v ∧
       countNaming f ((validate_numeric_fields mf r).1) = countNaming f r) ∧
    (∀ ed, posFloatDec r.data f = .err ed →
       getk ((validate_numeric_fields mf r).1).cleaned f = none ∧
       countNaming f ((validate_numeric_fields mf r).1) = countNaming f r + 1) := by
  have hdich := loopV_dich stepSpec_pos_float mf.POS_FLOAT_FIELDS f r false hcnt
    (fun g _ h => h) hclean
  simp only [validate_numeric_fields, cleanup]
  refine ⟨fun hd => ?_, fun v hd => ?_, fun ed hd => ?_⟩
  · obtain ⟨hc, hn⟩ := hdich.1 hd
    constructor
    · rw [loopV_cleaned_frame stepSpec_pos_int _ _ _ _ hnI,
          loopV_cleaned_frame stepSpec_float _ _ _ _ hnF]
      exact hc
    · rw [countNaming_frame stepSpec_pos_int _ _ _ _ hnI,
          countNaming_frame stepSpec_float _ _ _ _ hnF]
      exact hn
  · obtain ⟨hc, hn⟩ := hdich.2.1 v hd
    constructor
    · rw [loopV_cleaned_frame stepSpec_pos_int _ _ _ _ hnI,
          loopV_cleaned_frame stepSpec_float _ _ _ _ hnF]
      exact hc
    · rw [countNaming_frame stepSpec_pos_int _ _ _ _ hnI,
          countNaming_frame stepSpec_float _ _ _ _ hnF]
      exact hn
  · obtain ⟨hc, hn, _⟩ := hdich.2.2 ed hd
    constructor
    · rw [loopV_cleaned_frame stepSpec_pos_int _ _ _ _ hnI,
          loopV_cleaned_frame stepSpec_float _ _ _ _ hnF]
      exact hc
    · rw [countNaming_frame stepSpec_pos_int _ _ _ _ hnI,
          countNaming_frame stepSpec_float _ _ _ _ hnF]
      exact hn

/-- Composite dichotomy through all three numeric passes for a field
declared plain-float only. -/
theorem numeric_pipeline_fl (mf : ModelFields) (r : RowState) (f : String)
    (hcnt : mf.FLOAT_FIELDS.count f = 1)
    (hnP : ∀ g ∈ mf.POS_FLOAT_FIELDS, g ≠ f)
    (hnI : ∀ g ∈ mf.POS_INT_FIELDS, g ≠ f)
    (hclean : getk r.cleaned f = none) :
    ((floatDec r.data f = .skip ∨ floatDec r.data f = .flagOnly) →
       getk ((validate_numeric_fields mf r).1).cleaned f = none ∧
       countNaming f ((validate_numeric_fields mf r).1) = countNaming f r) ∧
    (∀ v, floatDec r.data f = .clean v →
       getk ((validate_numeric_fields mf r).1).cleaned f = some v ∧
       countNaming f ((validate_numeric_fields mf r).1) = countNaming f r) ∧
    (∀ ed, floatDec r.data f = .err ed →
       getk ((validate_numeric_fields mf r).1).cleaned f = none ∧
       countNaming f ((validate_numeric_fields mf r).1) = countNaming f r + 1) := by
  have hclean1 : getk ((loopV (numeric_step safe_pos_float_v)
      mf.POS_FLOAT_FIELDS r false).1).cleaned f = none := by
    rw [loopV_cleaned_frame stepSpec_pos_float _ _ _ _ hnP]
    exact hclean
  have hdich := loopV_dich stepSpec_float mf.FLOAT_FIELDS f
    ((loopV (numeric_step safe_pos_float_v) mf.POS_FLOAT_FIELDS r false).1) false hcnt
    (fun g _ h => h) hclean1
  have hdata1 : ((loopV (numeric_step safe_pos_float_v)
      mf.POS_FLOAT_FIELDS r false).1).data = r.data :=
    loopV_data stepSpec_pos_float _ _ _
  rw [hdata1] at hdich
  have hcteq : countNaming f ((loopV (numeric_step safe_pos_float_v)
      mf.POS_FLOAT_FIELDS r false).1) = countNaming f r :=
    countNaming_frame stepSpec_pos_float _ _ _ _ hnP
  simp only [validate_numeric_fields, cleanup]
  refine ⟨fun hd => ?_, fun v hd => ?_, fun ed hd => ?_⟩
  · obtain ⟨hc, hn⟩ := hdich.1 hd
    constructor
    · rw [loopV_cleaned_frame stepSpec_pos_int _ _ _ _ hnI]
      exact hc
    · rw [countNaming_frame stepSpec_pos_int _ _ _ _ hnI, hn, hcteq]
  · obtain ⟨hc, hn⟩ := hdich.2.1 v hd
    constructor
    · rw [loopV_cleaned_frame stepSpec_pos_int _ _ _ _ hnI]
      exact hc
    · rw [countNaming_frame stepSpec_pos_int _ _ _ _ hnI, hn, hcteq]
  · obtain ⟨hc, hn, _⟩ := hdich.2.2 ed hd
    constructor
    · rw [loopV_cleaned_frame stepSpec_pos_int _ _ _ _ hnI]
      exact hc
    · rw [countNaming_frame stepSpec_pos_int _ _ _ _ hnI, hn, hcteq]

/-- Composite dichotomy through all three numeric passes for a field
declared positive-int only. -/
theorem numeric_pipeline_pi (mf : ModelFields) (r : RowState) (f : String)
    (hcnt : mf.POS_INT_FIELDS.count f = 1)
    (hnP : ∀ g ∈ mf.POS_FLOAT_FIELDS, g ≠ f)
    (hnF : ∀ g ∈ mf.FLOAT_FIELDS, g ≠ f)
    (hclean : getk r.cleaned f = none) :
    ((posIntDec r.data f = .skip ∨ posIntDec r.data f = .flagOnly) →
       getk ((validate_numeric_fields mf r).1).cleaned f = none ∧
       countNaming f ((validate_numeric_fields mf r).1) = countNaming f r) ∧
    (∀ v, posIntDec r.data f = .clean v →
       getk ((validate_numeric_fields mf r).1).cleaned f = some v ∧
       countNaming f ((validate_numeric_fields mf r).1) = countNaming f r) ∧
    (∀ ed, posIntDec r.data f = .err ed →
       getk ((validate_numeric_fields mf r).1).cleaned f = none ∧
       countNaming f ((validate_numeric_fields mf r).1) = countNaming f r + 1) := by
  have hclean1 : getk ((loopV (numeric_step safe_pos_float_v)
      mf.POS_FLOAT_FIELDS r false).1).cleaned f = none := by
    rw [loopV_cleaned_frame stepSpec_pos_float _ _ _ _ hnP]
    exact hclean
  have hclean2 : getk ((loopV (numeric_step safe_float_v) mf.FLOAT_FIELDS
      ((loopV (numeric_step safe_pos_float_v) mf.POS_FLOAT_FIELDS r false).1)
      false).1).cleaned f = none := by
    rw [loopV_cleaned_frame stepSpec_float _ _ _ _ hnF]
    exact hclean1
  have hdich := loopV_dich stepSpec_pos_int mf.POS_INT_FIELDS f
    ((loopV (numeric_step safe_float_v) mf.FLOAT_FIELDS
      ((loopV (numeric_step safe_pos_float_v) mf.POS_FLOAT_FIELDS r false).1)
      false).1) false hcnt (fun g _ h => h) hclean2
  have hdata1 : ((loopV (numeric_step safe_pos_float_v)
      mf.POS_FLOAT_FIELDS r false).1).data = r.data :=
    loopV_data stepSpec_pos_float _ _ _
  have hdata2 : ((loopV (numeric_step safe_float_v) mf.FLOAT_FIELDS
      ((loopV (numeric_step safe_pos_float_v) mf.POS_FLOAT_FIELDS r false).1)
      false).1).data = r.data := by
    rw [loopV_data stepSpec_float, hdata1]
  rw [hdata2] at hdich
  have hcteq1 : countNaming f ((loopV (numeric_step safe_pos_float_v)
      mf.POS_FLOAT_FIELDS r false).1) = countNaming f r :=
    countNaming_frame stepSpec_pos_float _ _ _ _ hnP
  have hcteq2 : countNaming f ((loopV (numeric_step safe_float_v) mf.FLOAT_FIELDS
      ((loopV (numeric_step safe_pos_float_v) mf.POS_FLOAT_FIELDS r false).1)
      false).1) = countNaming f r := by
    rw [countNaming_frame stepSpec_float _ _ _ _ hnF, hcteq1]
  simp only [validate_numeric_fields, cleanup]
  refine ⟨fun hd => ?_, fun v hd => ?_, fun ed hd => ?_⟩
  · obtain ⟨hc, hn⟩ := hdich.1 hd
    exact ⟨hc, by rw [hn, hcteq2]⟩
  · obtain ⟨hc, hn⟩ := hdich.2.1 v hd
    exact ⟨hc, by rw [hn, hcteq2]⟩
  · obtain ⟨hc, hn, _⟩ := hdich.2.2 ed hd
    exact ⟨hc, by rw [hn, hcteq2]⟩

theorem gfwe_field_none (dd : List (String × String)) (fs : List String) :
    fs.foldl (gfwe_field dd) none = none := by
  induction fs with
  | nil => rfl
  | cons f fs ih =>
    show fs.foldl (gfwe_field dd) (gfwe_field dd none f) = none
    exact ih

theorem gfwe_error_none (dd : List (String × String)) (es : List RowError) :
    es.foldl (gfwe_error dd) none = none := by
  induction es with
  | nil => rfl
  | cons e es ih =>
    show es.foldl (gfwe_error dd) (gfwe_error dd none e) = none
    rw [show gfwe_error dd none e = none from gfwe_field_none dd e.fields]
    exact ih

/-- The inner field fold of `get_fields_with_error` succeeds exactly when
every processed field is a key of the raw data, and on success records
each processed field with its raw value without disturbing anything. -/
theorem gfwe_field_fold (dd : List (String × String)) :
    ∀ (fs : List String) (m0 : List (String × String)),
      (∀ g v, getk m0 g = some v → getk dd g = some v) →
      ((fs.foldl (gfwe_field dd) (some m0)).isSome ↔ ∀ f ∈ fs, (getk dd f).isSome) ∧
      (∀ m, fs.foldl (gfwe_field dd) (some m0) = some m →
        (∀ g v, getk m g = some v → getk dd g = some v) ∧
        (∀ f ∈ fs, getk m f = getk dd f) ∧
        (∀ g, (getk m0 g).isSome → (getk m g).isSome)) := by
  intro fs
  induction fs with
  | nil =>
    intro m0 hA
    refine ⟨by simp, ?_⟩
    intro m hm
    injection hm with h
    subst h
    exact ⟨hA, by simp, fun g hg => hg⟩
  | cons f fs ih =>
    intro m0 hA
    cases hf : getk dd f with
    | none =>
      have hstep : gfwe_field dd (some m0) f = none := by simp [gfwe_field, hf]
      constructor
      · rw [List.foldl_cons, hstep, gfwe_field_none]
        simp [hf]
      · intro m hm
        rw [List.foldl_cons, hstep, gfwe_field_none] at hm
        cases hm
    | some v =>
      have hstep : gfwe_field dd (some m0) f = some (setk m0 f v) := by
        simp [gfwe_field, hf]
      have hA' : ∀ g w, getk (setk m0 f v) g = some w → getk dd g = some w := by
        intro g w hw
        by_cases hgf : g = f
        · subst hgf
          rw [getk_setk_self] at hw
          injection hw with hvw
          rw [hf, hvw]
        · rw [getk_setk_ne _ _ _ _ hgf] at hw
          exact hA g w hw
      obtain ⟨iha, ihb⟩ := ih (setk m0 f v) hA'
      constructor
      · rw [List.foldl_cons, hstep, iha]
        simp [hf]
      · intro m hm
        rw [List.foldl_cons, hstep] at hm
        obtain ⟨hAm, hmap, hmono⟩ := ihb m hm
        refine ⟨hAm, ?_, ?_⟩
        · intro f' hf'
          rcases List.mem_cons.mp hf' with rfl | hmem
          · have hS : (getk m f').isSome := by
              apply hmono
              rw [getk_setk_self]
              rfl
            obtain ⟨w, hw⟩ := Option.isSome_iff_exists.mp hS
            have hd := hAm f' w hw
            rw [hw, hd]
          · exact hmap f' hmem
        · intro g hg
          exact hmono g (getk_setk_isSome_of_isSome _ _ _ _ hg)

/-- The outer error fold of `get_fields_with_error` succeeds exactly when
every field referenced by any processed error is a key of the raw data,
and on success maps each referenced field to its raw value. -/
theorem gfwe_error_fold (dd : List (String × String)) :
    ∀ (es : List RowError) (m0 : List (String × String)),
      (∀ g v, getk m0 g = some v → getk dd g = some v) →
      ((es.foldl (gfwe_error dd) (some m0)).isSome ↔
        ∀ e ∈ es, ∀ f ∈ e.fields, (getk dd f).isSome) ∧
      (∀ m, es.foldl (gfwe_error dd) (some m0) = some m →
        (∀ g v, getk m g = some v → getk dd g = some v) ∧
        (∀ e ∈ es, ∀ f ∈ e.fields, getk m f = getk dd f) ∧
        (∀ g, (getk m0 g).isSome → (getk m g).isSome)) := by
  intro es
  induction es with
  | nil =>
    intro m0 hA
    refine ⟨by simp, ?_⟩
    intro m hm
    injection hm with h
    subst h
    exact ⟨hA, by simp, fun g hg => hg⟩
  | cons e es ih =>
    intro m0 hA
    have hin := gfwe_field_fold dd e.fields m0 hA
    cases hstep : e.fields.foldl (gfwe_field dd) (some m0) with
    | none =>
      have hnotall : ¬ ∀ f ∈ e.fields, (getk dd f).isSome := by
        intro hall
        have hs := hin.1.mpr hall
        rw [hstep] at hs
        simp at hs
      constructor
      · constructor
        · intro hsome
          exfalso
          rw [List.foldl_cons, show gfwe_error dd (some m0) e = none from hstep,
            gfwe_error_none] at hsome
          simp at hsome
        · intro hall
          exact absurd (fun f hf => hall e (List.mem_cons_self e es) f hf) hnotall
      · intro m hm
        rw [List.foldl_cons, show gfwe_error dd (some m0) e = none from hstep,
          gfwe_error_none] at hm
        cases hm
    | some m1 =>
      obtain ⟨hA1, hmap1, hmono1⟩ := hin.2 m1 hstep
      have hallhead : ∀ f ∈ e.fields, (getk dd f).isSome := by
        apply hin.1.mp
        rw [hstep]
        rfl
      obtain ⟨iha, ihb⟩ := ih m1 hA1
      constructor
      · rw [List.foldl_cons, show gfwe_error dd (some m0) e = some m1 from hstep, iha]
        constructor
        · intro hall e' he' f hf
          rcases List.mem_cons.mp he' with rfl | hmem
          · exact hallhead f hf
          · exact hall e' hmem f hf
        · intro hall e' he' f hf
          exact hall e' (List.mem_cons_of_mem e he') f hf
      · intro m hm
        rw [List.foldl_cons, show gfwe_error dd (some m0) e = some m1 from hstep] at hm
        obtain ⟨hAm, hmap, hmono⟩ := ihb m hm
        refine ⟨hAm, ?_, fun g hg => hmono g (hmono1 g hg)⟩
        intro e' he' f hf
        rcases List.mem_cons.mp he' with rfl | hmem
        · have hS : (getk m f).isSome := by
            apply hmono
            rw [hmap1 f hf]
            exact hallhead f hf
          obtain ⟨w, hw⟩ := Option.isSome_iff_exists.mp hS
          have hd := hAm f w hw
          rw [hw, hd]
        · exact hmap e' hmem f hf

end GenericImportRow

/-! Claim theorems. -/

/-- C5: for every import event, calling `_validate_main_file` with a row
source containing zero rows returns false, sets the event status to
`FAILED_FILE_VERIFICATION`, and appends exactly one `EMPTY_FILE` error to
the global error list. -/
theorem c5_empty_file_fails (e : EventState) (fieldsource : List String)
    (cv : List String → Option ErrDef) :
    (GenericImportEvent.validate_main_file e [] fieldsource cv).2 = false ∧
    ((GenericImportEvent.validate_main_file e [] fieldsource cv).1).status
      = GenericImportEvent.FAILED_FILE_VERIFICATION ∧
    GenericImportEvent.errors_as_array
        (GenericImportEvent.validate_main_file e [] fieldsource cv).1
      = GenericImportEvent.errors_as_array e
        ++ [⟨errors.EMPTY_FILE.code, errors.EMPTY_FILE.msg, none,
             errors.EMPTY_FILE.fatal⟩] :=
  ⟨rfl, rfl, rfl⟩

/-- C8: appending an error (at event or row level) grows the decoded error
list by exactly one entry, preserves all prior entries verbatim and in
order, and places the new record at the end. -/
theorem c8_append_error_appends (e : EventState) (err : ErrDef)
    (d : Option (List String)) (r : RowState) (err2 : ErrDef)
    (flds : List String) (d2 : Option (List String)) :
    (GenericImportEvent.errors_as_array (GenericImportEvent.append_error e err d)
      = GenericImportEvent.errors_as_array e ++ [⟨err.code, err.msg, d, err.fatal⟩]) ∧
    ((GenericImportEvent.errors_as_array (GenericImportEvent.append_error e err d)).length
      = (GenericImportEvent.errors_as_array e).length + 1) ∧
    (GenericImportRow.errors_as_array (GenericImportRow.append_error r err2 flds d2)
      = GenericImportRow.errors_as_array r
        ++ [⟨err2.code, flds, err2.msg, d2, err2.fatal⟩]) ∧
    ((GenericImportRow.errors_as_array (GenericImportRow.append_error r err2 flds d2)).length
      = (GenericImportRow.errors_as_array r).length + 1) :=
  ⟨rfl, by simp [GenericImportEvent.append_error, GenericImportEvent.errors_as_array],
   rfl, by simp [GenericImportRow.append_error, GenericImportRow.errors_as_array]⟩

/-- C10: `status_summary` maps the five non-terminal-label states to five
pairwise distinct labels, and maps `FINISHED_CREATING` as well as every
other integer outside those five states to the catch-all label
"Finished"; it is total over `Int`. -/
theorem c10_status_summary_catch_all :
    (GenericImportEvent.status_summary GenericImportEvent.PENDING_VERIFICATION
        = "Not Yet Started" ∧
     GenericImportEvent.status_summary GenericImportEvent.VERIFIYING = "Verifying" ∧
     GenericImportEvent.status_summary GenericImportEvent.FINISHED_VERIFICATION
        = "Verification Complete" ∧
     GenericImportEvent.status_summary GenericImportEvent.CREATING = "Creating Trees" ∧
     GenericImportEvent.status_summary GenericImportEvent.FAILED_FILE_VERIFICATION
        = "Invalid File Structure" ∧
     GenericImportEvent.status_summary GenericImportEvent.FINISHED_CREATING
        = "Finished") ∧
    (∀ s : Int, s ≠ GenericImportEvent.PENDING_VERIFICATION →
        s ≠ GenericImportEvent.VERIFIYING →
        s ≠ GenericImportEvent.FINISHED_VERIFICATION →
        s ≠ GenericImportEvent.CREATING →
        s ≠ GenericImportEvent.FAILED_FILE_VERIFICATION →
        GenericImportEvent.status_summary s = "Finished") ∧
    (["Not Yet Started", "Verifying", "Verification Complete", "Creating Trees",
      "Invalid File Structure", "Finished"] : List String).Nodup := by
  refine ⟨⟨rfl, rfl, rfl, rfl, rfl, by decide⟩, ?_, by decide⟩
  intro s h1 h2 h3 h4 h5
  simp [GenericImportEvent.status_summary, h1, h2, h3, h4, h5]

/-- C10 witness: the catch-all branch at the out-of-range status 42. -/
theorem c10_status_summary_catch_all_witness :
    GenericImportEvent.status_summary 42 = "Finished" :=
  c10_status_summary_catch_all.2.1 42 (by decide) (by decide) (by decide)
    (by decide) (by decide)

/-- C1 counterexample: on a non-empty row source whose field set is a
strict superset of the expected set and whose custom validator reports no
error, `_validate_main_file` returns false but DOES set the event status
to `FAILED_FILE_VERIFICATION`, contrary to the claim that the status is
not set. -/
theorem c1_superset_counterexample :
    (GenericImportEvent.validate_main_file
        ⟨none, GenericImportEvent.PENDING_VERIFICATION⟩
        [[("a", "1"), ("b", "2")]] ["a"] (fun _ => none)).2 = false ∧
    ((GenericImportEvent.validate_main_file
        ⟨none, GenericImportEvent.PENDING_VERIFICATION⟩
        [[("a", "1"), ("b", "2")]] ["a"] (fun _ => none)).1).status
      = GenericImportEvent.FAILED_FILE_VERIFICATION := by
  exact ⟨rfl, rfl⟩

/-- C1 amended: on a non-empty row source whose observed field set has
entries outside the expected set (custom validator passing),
`_validate_main_file` returns false, sets the event status to
`FAILED_FILE_VERIFICATION`, and appends exactly one `UNMATCHED_FIELDS`
warning listing the extra fields. -/
theorem c1_superset_unmatched (e : EventState) (row0 : List (String × String))
    (rows : List (List (String × String))) (fieldsource : List String)
    (cv : List String → Option ErrDef)
    (hcv : cv (row0.map Prod.fst) = none)
    (hrem : (row0.map Prod.fst).filter (fun f => ¬ fieldsource.contains f) ≠ []) :
    (GenericImportEvent.validate_main_file e (row0 :: rows) fieldsource cv).2 = false ∧
    ((GenericImportEvent.validate_main_file e (row0 :: rows) fieldsource cv).1).status
      = GenericImportEvent.FAILED_FILE_VERIFICATION ∧
    GenericImportEvent.errors_as_array
        (GenericImportEvent.validate_main_file e (row0 :: rows) fieldsource cv).1
      = GenericImportEvent.errors_as_array e
        ++ [⟨errors.UNMATCHED_FIELDS.code, errors.UNMATCHED_FIELDS.msg,
             some ((row0.map Prod.fst).filter (fun f => ¬ fieldsource.contains f)),
             errors.UNMATCHED_FIELDS.fatal⟩] := by
  have hlen : 0 < ((row0.map Prod.fst).filter (fun f => ¬ fieldsource.contains f)).length :=
    List.length_pos.mpr hrem
  have hbeq : (((row0.map Prod.fst).filter
      (fun f => ¬ fieldsource.contains f)).length == 0) = false := by
    cases hn : ((row0.map Prod.fst).filter (fun f => ¬ fieldsource.contains f)).length with
    | zero => rw [hn] at hlen; exact absurd hlen (by simp)
    | succ n => rfl
  simp only [GenericImportEvent.validate_main_file]
  rw [hcv]
  simp only [Option.isNone_none, Bool.true_and, hbeq, if_pos hlen, Bool.false_eq_true,
    if_false]
  and_intros <;> first | rfl | trivial

/-- C1 witness for the amended theorem at a concrete superset input. -/
theorem c1_superset_unmatched_witness :
    (GenericImportEvent.validate_main_file
        ⟨none, GenericImportEvent.PENDING_VERIFICATION⟩
        [[("a", "1"), ("b", "2")]] ["a"] (fun _ => none)).2 = false ∧
    ((GenericImportEvent.validate_main_file
        ⟨none, GenericImportEvent.PENDING_VERIFICATION⟩
        [[("a", "1"), ("b", "2")]] ["a"] (fun _ => none)).1).status
      = GenericImportEvent.FAILED_FILE_VERIFICATION ∧
    GenericImportEvent.errors_as_array
        (GenericImportEvent.validate_main_file
          ⟨none, GenericImportEvent.PENDING_VERIFICATION⟩
          [[("a", "1"), ("b", "2")]] ["a"] (fun _ => none)).1
      = [⟨errors.UNMATCHED_FIELDS.code, errors.UNMATCHED_FIELDS.msg,
          some ["b"], errors.UNMATCHED_FIELDS.fatal⟩] :=
  c1_superset_unmatched ⟨none, GenericImportEvent.PENDING_VERIFICATION⟩
    [("a", "1"), ("b", "2")] [] ["a"] (fun _ => none) rfl (by decide)

/-- C3 (code-bug exhibit): with two declared date fields, one parsing and
one failing, a single `validate_date_fields` pass leaves the canonical
planted-date key present in `cleaned` while an error naming that same key
is stored — the no-field-both-erroneous-and-cleaned invariant fails. -/
theorem c3_planted_date_cleaned_and_errored :
    getk ((GenericImportRow.validate_date_fields
        ⟨[], [], [], [], [], ["d1", "d2"], "planted"⟩
        ⟨[("d1", "2020-03-15"), ("d2", "xx")], none, []⟩).1).cleaned "planted"
      = some (.date 2020 3 15) ∧
    GenericImportRow.countNaming "planted"
        ((GenericImportRow.validate_date_fields
          ⟨[], [], [], [], [], ["d1", "d2"], "planted"⟩
          ⟨[("d1", "2020-03-15"), ("d2", "xx")], none, []⟩).1) = 1 := by
  exact ⟨rfl, rfl⟩

/-- C2 counterexample: `validate_boolean_fields` returns true on a present
empty boolean value although no error at all (in particular no fatal one)
is recorded; and `validate_numeric_fields` returns false although one
fatal float-parse error was recorded, because its flag is the conjunction
of the three sub-pass flags. -/
theorem c2_flag_counterexample :
    ((GenericImportRow.validate_boolean_fields ⟨[], [], [], [], ["b"], [], "p"⟩
        ⟨[("b", "")], none, []⟩).2 = true ∧
     GenericImportRow.errors_as_array
        (GenericImportRow.validate_boolean_fields ⟨[], [], [], [], ["b"], [], "p"⟩
          ⟨[("b", "")], none, []⟩).1 = []) ∧
    ((GenericImportRow.validate_numeric_fields ⟨["x"], [], [], [], [], [], "p"⟩
        ⟨[("x", "abc")], none, []⟩).2 = false ∧
     GenericImportRow.errors_as_array
        (GenericImportRow.validate_numeric_fields ⟨["x"], [], [], [], [], [], "p"⟩
          ⟨[("x", "abc")], none, []⟩).1
       = [⟨errors.FLOAT_ERROR.code, ["x"], errors.FLOAT_ERROR.msg, none, true⟩]) := by
  exact ⟨⟨rfl, rfl⟩, rfl, rfl⟩

/-- C2 amended: the flags actually returned by the field-group validators.
`validate_string_fields` and `validate_date_fields` return true exactly
when the stored error list grew during the pass (for dates those errors
are the non-fatal invalid-date code); `validate_boolean_fields` returns
true exactly when some declared boolean field is present whose lowercased
value is not one of the six recognized words (the empty string sets the
flag without recording any error); `validate_numeric_fields` returns the
conjunction of its three sub-pass flags, so it is true only when each of
the positive-float, float and positive-int passes hit a bad value. -/
theorem c2_validator_flags (mf : ModelFields) (r : RowState) :
    ((GenericImportRow.validate_string_fields mf r).2 = true ↔
      (GenericImportRow.errors_as_array
          (GenericImportRow.validate_string_fields mf r).1).length
        > (GenericImportRow.errors_as_array r).length) ∧
    ((GenericImportRow.validate_date_fields mf r).2 = true ↔
      (GenericImportRow.errors_as_array
          (GenericImportRow.validate_date_fields mf r).1).length
        > (GenericImportRow.errors_as_array r).length) ∧
    ((GenericImportRow.validate_boolean_fields mf r).2 = true ↔
      ∃ f ∈ mf.BOOLEAN_FIELDS, ∃ s, getk r.data f = some s ∧
        pyLower s ∉ (["true", "t", "yes", "false", "f", "no"] : List String)) ∧
    ((GenericImportRow.validate_numeric_fields mf r).2 = true ↔
      ((∃ f ∈ mf.POS_FLOAT_FIELDS, ∃ s, getk r.data f = some s ∧ s ≠ "" ∧
          (match pyFloat s with | none => True | some q => q < 0)) ∧
       (∃ f ∈ mf.FLOAT_FIELDS, ∃ s, getk r.data f = some s ∧ s ≠ "" ∧
          pyFloat s = none) ∧
       (∃ f ∈ mf.POS_INT_FIELDS, ∃ s, getk r.data f = some s ∧ s ≠ "" ∧
          (match pyInt s with | none => True | some n => n < 0)))) := by
  refine ⟨?_, ?_, ?_, ?_⟩
  · exact GenericImportRow.noflag_flag_iff_errlen GenericImportRow.stepSpec_string
      GenericImportRow.stringDec_noflag mf.STRING_FIELDS r
  · exact GenericImportRow.noflag_flag_iff_errlen
      (GenericImportRow.stepSpec_date mf.DATE_PLANTED)
      GenericImportRow.dateDec_noflag mf.DATE_FIELDS r
  · rw [GenericImportRow.validate_bool_flag]
    exact GenericImportRow.any_iff_exists_of_pointwise
      (fun f => GenericImportRow.boolDec_flag_iff r.data f) mf.BOOLEAN_FIELDS
  · rw [GenericImportRow.validate_numeric_flag, Bool.and_eq_true, Bool.and_eq_true]
    rw [GenericImportRow.any_iff_exists_of_pointwise
        (fun f => GenericImportRow.posFloatDec_flag_iff r.data f) mf.POS_FLOAT_FIELDS,
      GenericImportRow.any_iff_exists_of_pointwise
        (fun f => GenericImportRow.floatDec_flag_iff r.data f) mf.FLOAT_FIELDS,
      GenericImportRow.any_iff_exists_of_pointwise
        (fun f => GenericImportRow.posIntDec_flag_iff r.data f) mf.POS_INT_FIELDS]
    tauto

/-- C9 counterexample: a stored error referencing a field that is not a
key of the raw data (here the canonical planted-date key after a date
error on a row without that raw column) makes `get_fields_with_error`
fail with a KeyError instead of returning a mapping. -/
theorem c9_get_fields_with_error_counterexample :
    GenericImportRow.get_fields_with_error
      ⟨[], some [⟨errors.INVALID_DATE.code, ["planted"], errors.INVALID_DATE.msg,
                  none, false⟩], []⟩
      = none := rfl

/-- C9 amended: `get_fields_with_error` returns a mapping exactly when
every field referenced by a stored error is a key of the raw data, and
that mapping then sends each such field to its raw value; when a stored
error references a missing field (such as the canonical planted-date
key), the raw-data lookup fails and no mapping is produced. -/
theorem c9_get_fields_with_error_success (r : RowState) :
    ((GenericImportRow.get_fields_with_error r).isSome ↔
      ∀ e ∈ GenericImportRow.errors_as_array r, ∀ f ∈ e.fields,
        (getk r.data f).isSome) ∧
    (∀ m, GenericImportRow.get_fields_with_error r = some m →
      ∀ e ∈ GenericImportRow.errors_as_array r, ∀ f ∈ e.fields,
        getk m f = getk r.data f) := by
  have hA : ∀ g v, getk ([] : List (String × String)) g = some v →
      getk r.data g = some v := by
    intro g v hv
    cases hv
  have h := GenericImportRow.gfwe_error_fold r.data
    (GenericImportRow.errors_as_array r) [] hA
  exact ⟨h.1, fun m hm => (h.2 m hm).2.1⟩

/-- C9 witness: on a row whose single error references the present raw
field "a", the call succeeds and maps "a" to its raw value. -/
theorem c9_get_fields_with_error_success_witness :
    (GenericImportRow.get_fields_with_error
        ⟨[("a", "1")], some [⟨15, ["a"], "m", none, true⟩], []⟩).isSome = true ∧
    getk ([("a", "1")] : List (String × String)) "a"
      = getk (RowState.mk [("a", "1")] (some [⟨15, ["a"], "m", none, true⟩]) []).data "a" :=
  ⟨(c9_get_fields_with_error_success
      ⟨[("a", "1")], some [⟨15, ["a"], "m", none, true⟩], []⟩).1.mpr (by decide),
   (c9_get_fields_with_error_success
      ⟨[("a", "1")], some [⟨15, ["a"], "m", none, true⟩], []⟩).2
     [("a", "1")] rfl ⟨15, ["a"], "m", none, true⟩ (by decide) "a" (by decide)⟩

/-- C6: behavior of the boolean validator on a declared boolean field
present in the raw data: a value lowercasing to "true"/"t"/"yes" cleans
to true, one lowercasing to "false"/"f"/"no" cleans to false, the empty
string is a no-op (no error recorded, no cleaned entry), and any other
value records exactly one boolean-parse error naming the field, with no
cleaned entry. -/
theorem c6_boolean_validator (mf : ModelFields) (r : RowState) (f s : String)
    (hnd : mf.BOOLEAN_FIELDS.Nodup)
    (hmem : f ∈ mf.BOOLEAN_FIELDS)
    (hclean : getk r.cleaned f = none)
    (hdata : getk r.data f = some s) :
    ((pyLower s = "true" ∨ pyLower s = "t" ∨ pyLower s = "yes") →
      getk ((GenericImportRow.validate_boolean_fields mf r).1).cleaned f
          = some (.bool true) ∧
      GenericImportRow.countNaming f ((GenericImportRow.validate_boolean_fields mf r).1)
          = GenericImportRow.countNaming f r) ∧
    ((pyLower s = "false" ∨ pyLower s = "f" ∨ pyLower s = "no") →
      getk ((GenericImportRow.validate_boolean_fields mf r).1).cleaned f
          = some (.bool false) ∧
      GenericImportRow.countNaming f ((GenericImportRow.validate_boolean_fields mf r).1)
          = GenericImportRow.countNaming f r) ∧
    (s = "" →
      getk ((GenericImportRow.validate_boolean_fields mf r).1).cleaned f = none ∧
      GenericImportRow.countNaming f ((GenericImportRow.validate_boolean_fields mf r).1)
          = GenericImportRow.countNaming f r) ∧
    (s ≠ "" →
      pyLower s ∉ (["true", "t", "yes", "false", "f", "no"] : List String) →
      getk ((GenericImportRow.validate_boolean_fields mf r).1).cleaned f = none ∧
      GenericImportRow.countNaming f ((GenericImportRow.validate_boolean_fields mf r).1)
          = GenericImportRow.countNaming f r + 1 ∧
      GenericImportRow.countNamingCode f errors.BOOL_ERROR.code
          ((GenericImportRow.validate_boolean_fields mf r).1)
        = GenericImportRow.countNamingCode f errors.BOOL_ERROR.code r + 1) := by
  have hcnt : mf.BOOLEAN_FIELDS.count f = 1 := List.count_eq_one_of_mem hnd hmem
  have hdich := GenericImportRow.loopV_dich GenericImportRow.stepSpec_bool
    mf.BOOLEAN_FIELDS f r false hcnt (fun g _ h => h) hclean
  refine ⟨?_, ?_, ?_, ?_⟩
  · intro h1
    have hne : pyLower s ≠ "" := by rcases h1 with h | h | h <;> rw [h] <;> decide
    have hdec : boolDec r.data f = .clean (.bool true) := by
      unfold boolDec
      rw [hdata]
      dsimp only
      rw [if_neg hne, if_pos h1]
    exact hdich.2.1 (.bool true) hdec
  · intro h2
    have hne : pyLower s ≠ "" := by rcases h2 with h | h | h <;> rw [h] <;> decide
    have hnt : ¬(pyLower s = "true" ∨ pyLower s = "t" ∨ pyLower s = "yes") := by
      rcases h2 with h | h | h <;> rw [h] <;> decide
    have hdec : boolDec r.data f = .clean (.bool false) := by
      unfold boolDec
      rw [hdata]
      dsimp only
      rw [if_neg hne, if_neg hnt, if_pos h2]
    exact hdich.2.1 (.bool false) hdec
  · intro h0
    have hdec : boolDec r.data f = .flagOnly := by
      unfold boolDec
      rw [hdata]
      dsimp only
      rw [if_pos ((GenericImportRow.pyLower_eq_empty_iff s).mpr h0)]
    exact hdich.1 (Or.inr hdec)
  · intro hnes hmem6
    have hne' : pyLower s ≠ "" := fun hh => hnes ((GenericImportRow.pyLower_eq_empty_iff s).mp hh)
    simp only [List.mem_cons, List.not_mem_nil, or_false, not_or] at hmem6
    obtain ⟨n1, n2, n3, n4, n5, n6⟩ := hmem6
    have hnt : ¬(pyLower s = "true" ∨ pyLower s = "t" ∨ pyLower s = "yes") := by
      tauto
    have hnf : ¬(pyLower s = "false" ∨ pyLower s = "f" ∨ pyLower s = "no") := by
      tauto
    have hdec : boolDec r.data f = .err errors.BOOL_ERROR := by
      unfold boolDec
      rw [hdata]
      dsimp only
      rw [if_neg hne', if_neg hnt, if_neg hnf]
    exact hdich.2.2 errors.BOOL_ERROR hdec

/-- C6 witness: "Yes" on a declared boolean field cleans to true with no
error recorded. -/
theorem c6_boolean_validator_witness :
    getk ((GenericImportRow.validate_boolean_fields ⟨[], [], [], [], ["b"], [], "p"⟩
        ⟨[("b", "Yes")], none, []⟩).1).cleaned "b" = some (.bool true) ∧
    GenericImportRow.countNaming "b"
        ((GenericImportRow.validate_boolean_fields ⟨[], [], [], [], ["b"], [], "p"⟩
          ⟨[("b", "Yes")], none, []⟩).1)
      = GenericImportRow.countNaming "b" ⟨[("b", "Yes")], none, []⟩ :=
  (c6_boolean_validator ⟨[], [], [], [], ["b"], [], "p"⟩ ⟨[("b", "Yes")], none, []⟩
      "b" "Yes" (by decide) (by decide) rfl rfl).1 (by decide)

/-- C7: the date validator parses non-empty raw values of declared date
fields with the fixed YYYY-MM-DD format: "2020-03-15" produces a date
cleaned entry under the canonical planted-date key; "15/03/2020" and
"2020-13-01" each record exactly one invalid-date error tagged to that
canonical key and leave no cleaned entry. -/
theorem c7_date_validator (mf : ModelFields) (r : RowState) (f : String)
    (hdf : mf.DATE_FIELDS = [f])
    (hclean : getk r.cleaned mf.DATE_PLANTED = none) :
    (getk r.data f = some "2020-03-15" →
      getk ((GenericImportRow.validate_date_fields mf r).1).cleaned mf.DATE_PLANTED
          = some (.date 2020 3 15) ∧
      GenericImportRow.countNaming mf.DATE_PLANTED
          ((GenericImportRow.validate_date_fields mf r).1)
        = GenericImportRow.countNaming mf.DATE_PLANTED r) ∧
    (getk r.data f = some "15/03/2020" →
      getk ((GenericImportRow.validate_date_fields mf r).1).cleaned mf.DATE_PLANTED
          = none ∧
      GenericImportRow.countNaming mf.DATE_PLANTED
          ((GenericImportRow.validate_date_fields mf r).1)
        = GenericImportRow.countNaming mf.DATE_PLANTED r + 1 ∧
      GenericImportRow.countNamingCode mf.DATE_PLANTED errors.INVALID_DATE.code
          ((GenericImportRow.validate_date_fields mf r).1)
        = GenericImportRow.countNamingCode mf.DATE_PLANTED errors.INVALID_DATE.code r
          + 1) ∧
    (getk r.data f = some "2020-13-01" →
      getk ((GenericImportRow.validate_date_fields mf r).1).cleaned mf.DATE_PLANTED
          = none ∧
      GenericImportRow.countNaming mf.DATE_PLANTED
          ((GenericImportRow.validate_date_fields mf r).1)
        = GenericImportRow.countNaming mf.DATE_PLANTED r + 1 ∧
      GenericImportRow.countNamingCode mf.DATE_PLANTED errors.INVALID_DATE.code
          ((GenericImportRow.validate_date_fields mf r).1)
        = GenericImportRow.countNamingCode mf.DATE_PLANTED errors.INVALID_DATE.code r
          + 1) := by
  unfold GenericImportRow.validate_date_fields
  rw [hdf]
  have hdich := GenericImportRow.loopV_dich
      (GenericImportRow.stepSpec_date mf.DATE_PLANTED) [f] f r false
      (by simp) (fun g hg _ => List.mem_singleton.mp hg) hclean
  refine ⟨?_, ?_, ?_⟩
  · intro hdata
    have hdec : dateDec r.data f = .clean (.date 2020 3 15) := by
      unfold dateDec
      rw [hdata]
      rfl
    exact hdich.2.1 (.date 2020 3 15) hdec
  · intro hdata
    have hdec : dateDec r.data f = .err errors.INVALID_DATE := by
      unfold dateDec
      rw [hdata]
      rfl
    exact hdich.2.2 errors.INVALID_DATE hdec
  · intro hdata
    have hdec : dateDec r.data f = .err errors.INVALID_DATE := by
      unfold dateDec
      rw [hdata]
      rfl
    exact hdich.2.2 errors.INVALID_DATE hdec

/-- C7 witness: a single date field with value "2020-03-15" cleans to the
parsed date under the canonical planted-date key. -/
theorem c7_date_validator_witness :
    getk ((GenericImportRow.validate_date_fields ⟨[], [], [], [], [], ["d"], "planted"⟩
        ⟨[("d", "2020-03-15")], none, []⟩).1).cleaned "planted"
      = some (.date 2020 3 15) ∧
    GenericImportRow.countNaming "planted"
        ((GenericImportRow.validate_date_fields ⟨[], [], [], [], [], ["d"], "planted"⟩
          ⟨[("d", "2020-03-15")], none, []⟩).1)
      = GenericImportRow.countNaming "planted" ⟨[("d", "2020-03-15")], none, []⟩ :=
  (c7_date_validator ⟨[], [], [], [], [], ["d"], "planted"⟩
      ⟨[("d", "2020-03-15")], none, []⟩ "d" rfl rfl).1 rfl

/-- C4: for a row with a disjoint, duplicate-free numeric field catalog
and a declared numeric field not yet cleaned, after
`validate_numeric_fields` either the parsed numeric value is in `cleaned`
under the field, or exactly one error naming that field was appended —
never both and never neither — except that an absent or empty raw value
is a no-op (no error, no cleaned entry). -/
theorem c4_numeric_dichotomy (mf : ModelFields) (r : RowState) (f : String)
    (hnd1 : mf.POS_FLOAT_FIELDS.Nodup) (hnd2 : mf.FLOAT_FIELDS.Nodup)
    (hnd3 : mf.POS_INT_FIELDS.Nodup)
    (hd12 : ∀ x ∈ mf.POS_FLOAT_FIELDS, x ∉ mf.FLOAT_FIELDS)
    (hd13 : ∀ x ∈ mf.POS_FLOAT_FIELDS, x ∉ mf.POS_INT_FIELDS)
    (hd23 : ∀ x ∈ mf.FLOAT_FIELDS, x ∉ mf.POS_INT_FIELDS)
    (hclean : getk r.cleaned f = none) :
    (f ∈ mf.POS_FLOAT_FIELDS →
      (((getk r.data f = none ∨ getk r.data f = some "") →
          getk ((GenericImportRow.validate_numeric_fields mf r).1).cleaned f = none ∧
          GenericImportRow.countNaming f
              ((GenericImportRow.validate_numeric_fields mf r).1)
            = GenericImportRow.countNaming f r) ∧
       (∀ s, getk r.data f = some s → s ≠ "" →
          (pyFloat s = none →
            getk ((GenericImportRow.validate_numeric_fields mf r).1).cleaned f = none ∧
            GenericImportRow.countNaming f
                ((GenericImportRow.validate_numeric_fields mf r).1)
              = GenericImportRow.countNaming f r + 1) ∧
          (∀ q, pyFloat s = some q → q < 0 →
            getk ((GenericImportRow.validate_numeric_fields mf r).1).cleaned f = none ∧
            GenericImportRow.countNaming f
                ((GenericImportRow.validate_numeric_fields mf r).1)
              = GenericImportRow.countNaming f r + 1) ∧
          (∀ q, pyFloat s = some q → ¬ q < 0 →
            getk ((GenericImportRow.validate_numeric_fields mf r).1).cleaned f
                = some (.float q) ∧
            GenericImportRow.countNaming f
                ((GenericImportRow.validate_numeric_fields mf r).1)
              = GenericImportRow.countNaming f r)))) ∧
    (f ∈ mf.FLOAT_FIELDS →
      (((getk r.data f = none ∨ getk r.data f = some "") →
          getk ((GenericImportRow.validate_numeric_fields mf r).1).cleaned f = none ∧
          GenericImportRow.countNaming f
              ((GenericImportRow.validate_numeric_fields mf r).1)
            = GenericImportRow.countNaming f r) ∧
       (∀ s, getk r.data f = some s → s ≠ "" →
          (pyFloat s = none →
            getk ((GenericImportRow.validate_numeric_fields mf r).1).cleaned f = none ∧
            GenericImportRow.countNaming f
                ((GenericImportRow.validate_numeric_fields mf r).1)
              = GenericImportRow.countNaming f r + 1) ∧
          (∀ q, pyFloat s = some q →
            getk ((GenericImportRow.validate_numeric_fields mf r).1).cleaned f
                = some (.float q) ∧
            GenericImportRow.countNaming f
                ((GenericImportRow.validate_numeric_fields mf r).1)
              = GenericImportRow.countNaming f r)))) ∧
    (f ∈ mf.POS_INT_FIELDS →
      (((getk r.data f = none ∨ getk r.data f = some "") →
          getk ((GenericImportRow.validate_numeric_fields mf r).1).cleaned f = none ∧
          GenericImportRow.countNaming f
              ((GenericImportRow.validate_numeric_fields mf r).1)
            = GenericImportRow.countNaming f r) ∧
       (∀ s, getk r.data f = some s → s ≠ "" →
          (pyInt s = none →
            getk ((GenericImportRow.validate_numeric_fields mf r).1).cleaned f = none ∧
            GenericImportRow.countNaming f
                ((GenericImportRow.validate_numeric_fields mf r).1)
              = GenericImportRow.countNaming f r + 1) ∧
          (∀ n, pyInt s = some n → n < 0 →
            getk ((GenericImportRow.validate_numeric_fields mf r).1).cleaned f = none ∧
            GenericImportRow.countNaming f
                ((GenericImportRow.validate_numeric_fields mf r).1)
              = GenericImportRow.countNaming f r + 1) ∧
          (∀ n, pyInt s = some n → ¬ n < 0 →
            getk ((GenericImportRow.validate_numeric_fields mf r).1).cleaned f
                = some (.int n) ∧
            GenericImportRow.countNaming f
                ((GenericImportRow.validate_numeric_fields mf r).1)
              = GenericImportRow.countNaming f r)))) := by
  refine ⟨fun hmem => ?_, fun hmem => ?_, fun hmem => ?_⟩
  · have hcnt := List.count_eq_one_of_mem hnd1 hmem
    have hnF : ∀ g ∈ mf.FLOAT_FIELDS, g ≠ f :=
      fun g hg heq => hd12 f hmem (heq ▸ hg)
    have hnI : ∀ g ∈ mf.POS_INT_FIELDS, g ≠ f :=
      fun g hg heq => hd13 f hmem (heq ▸ hg)
    have hp := GenericImportRow.numeric_pipeline_pf mf r f hcnt hnF hnI hclean
    refine ⟨fun habs => ?_,
      fun s hs hsne => ⟨fun hpn => ?_, fun q hq hneg => ?_, fun q hq hpos => ?_⟩⟩
    · apply hp.1
      left
      unfold posFloatDec
      rcases habs with h | h <;> rw [h] <;> rfl
    · apply hp.2.2 errors.FLOAT_ERROR
      unfold posFloatDec
      rw [hs]
      dsimp only
      rw [if_neg hsne, hpn]
    · apply hp.2.2 errors.POS_FLOAT_ERROR
      unfold posFloatDec
      rw [hs]
      dsimp only
      rw [if_neg hsne, hq]
      dsimp only
      rw [if_pos hneg]
    · apply hp.2.1 (.float q)
      unfold posFloatDec
      rw [hs]
      dsimp only
      rw [if_neg hsne, hq]
      dsimp only
      rw [if_neg hpos]
  · have hcnt := List.count_eq_one_of_mem hnd2 hmem
    have hnP : ∀ g ∈ mf.POS_FLOAT_FIELDS, g ≠ f :=
      fun g hg heq => hd12 g hg (by rw [heq]; exact hmem)
    have hnI : ∀ g ∈ mf.POS_INT_FIELDS, g ≠ f :=
      fun g hg heq => hd23 f hmem (heq ▸ hg)
    have hp := GenericImportRow.numeric_pipeline_fl mf r f hcnt hnP hnI hclean
    refine ⟨fun habs => ?_, fun s hs hsne => ⟨fun hpn => ?_, fun q hq => ?_⟩⟩
    · apply hp.1
      left
      unfold floatDec
      rcases habs with h | h <;> rw [h] <;> rfl
    · apply hp.2.2 errors.FLOAT_ERROR
      unfold floatDec
      rw [hs]
      dsimp only
      rw [if_neg hsne, hpn]
    · apply hp.2.1 (.float q)
      unfold floatDec
      rw [hs]
      dsimp only
      rw [if_neg hsne, hq]
  · have hcnt := List.count_eq_one_of_mem hnd3 hmem
    have hnP : ∀ g ∈ mf.POS_FLOAT_FIELDS, g ≠ f :=
      fun g hg heq => hd13 g hg (by rw [heq]; exact hmem)
    have hnF : ∀ g ∈ mf.FLOAT_FIELDS, g ≠ f :=
      fun g hg heq => hd23 g hg (by rw [heq]; exact hmem)
    have hp := GenericImportRow.numeric_pipeline_pi mf r f hcnt hnP hnF hclean
    refine ⟨fun habs => ?_,
      fun s hs hsne => ⟨fun hpn => ?_, fun n hn hneg => ?_, fun n hn hpos => ?_⟩⟩
    · apply hp.1
      left
      unfold posIntDec
      rcases habs with h | h <;> rw [h] <;> rfl
    · apply hp.2.2 errors.INT_ERROR
      unfold posIntDec
      rw [hs]
      dsimp only
      rw [if_neg hsne, hpn]
    · apply hp.2.2 errors.POS_INT_ERROR
      unfold posIntDec
      rw [hs]
      dsimp only
      rw [if_neg hsne, hn]
      dsimp only
      rw [if_pos hneg]
    · apply hp.2.1 (.int n)
      unfold posIntDec
      rw [hs]
      dsimp only
      rw [if_neg hsne, hn]
      dsimp only
      rw [if_neg hpos]

/-- C4 witness: "7" on a positive-int field cleans to the integer 7 with
no error naming the field. -/
theorem c4_numeric_dichotomy_witness :
    getk ((GenericImportRow.validate_numeric_fields ⟨["x"], ["y"], ["z"], [], [], [], "p"⟩
        ⟨[("x", "2.5"), ("y", "-1"), ("z", "7")], none, []⟩).1).cleaned "z"
      = some (.int 7) ∧
    GenericImportRow.countNaming "z"
        ((GenericImportRow.validate_numeric_fields ⟨["x"], ["y"], ["z"], [], [], [], "p"⟩
          ⟨[("x", "2.5"), ("y", "-1"), ("z", "7")], none, []⟩).1)
      = GenericImportRow.countNaming "z"
          ⟨[("x", "2.5"), ("y", "-1"), ("z", "7")], none, []⟩ :=
  (((c4_numeric_dichotomy ⟨["x"], ["y"], ["z"], [], [], [], "p"⟩
        ⟨[("x", "2.5"), ("y", "-1"), ("z", "7")], none, []⟩ "z"
        (by decide) (by decide) (by decide) (by decide) (by decide) (by decide)
        rfl).2.2 (by decide)).2 "7" rfl (by decide)).2.2 7 (by decide) (by decide)
